import Mathlib

/-!
Verification development for the RLM (recursive language model) runtime:
budget accounting, sub-RLM dispatch, structured CSV documents, DSL and
planner coercion, and the improvement loops, shallowly embedded from the
TypeScript sources.

Modelling conventions:
- JavaScript numbers are modelled as rationals; IEEE-754 rounding is not
  modelled, but the finiteness checks are (a parse whose exact value has
  magnitude at least 2^1024 counts as non-finite, matching overflow to
  Infinity).  A JavaScript number that may be NaN or infinite is
  modelled as an Option of a rational (none = non-finite).
- Strings are sequences of Unicode scalar values (JavaScript indexes
  UTF-16 code units; surrogate pairs are not modelled).
- Mutation is modelled by explicit state passing; thrown exceptions by
  Except or by an error component in the returned pair.
-/

set_option maxRecDepth 100000

namespace Rlm

/-- JS String.prototype.slice: negative indices count from the end, both
indices clamp to the string bounds, and an empty string results when the
end does not lie past the start. -/
def jsSlice (s : String) (a b : Int) : String :=
  let len : Int := s.length
  let norm : Int → Int := fun i => if i < 0 then max (len + i) 0 else min i len
  let st := norm a
  let en := norm b
  if en ≤ st then ""
  else List.asString ((s.toList.drop st.toNat).take (en - st).toNat)

/-- JS ToIntegerOrInfinity on a finite number: truncation toward zero. -/
def qTrunc (q : ℚ) : Int :=
  if 0 ≤ q then Int.floor q else Int.ceil q

/-- JS String.prototype.slice with (finite) fractional arguments:
arguments are truncated toward zero first. -/
def jsSliceQ (s : String) (a b : ℚ) : String :=
  jsSlice s (qTrunc a) (qTrunc b)

/-- Split a character list at every occurrence of a character. -/
def splitOnChar (c : Char) : List Char → List (List Char)
  | [] => [[]]
  | x :: rest =>
    match splitOnChar c rest with
    | [] => [[x]]
    | h :: t => if x = c then [] :: h :: t else (x :: h) :: t

/-- JS String.prototype.trim (ASCII whitespace approximation). -/
def jsTrim (s : String) : String :=
  (((s.toList.dropWhile Char.isWhitespace).reverse.dropWhile
    Char.isWhitespace).reverse).asString

/-- Lowercasing, ASCII approximation of JS toLowerCase. -/
def jsToLower (s : String) : String :=
  (s.toList.map (fun c =>
    if 'A' ≤ c && c ≤ 'Z' then Char.ofNat (c.toNat + 32) else c)).asString

/-- Prefix test on character lists. -/
def isPrefixOfList : List Char → List Char → Bool
  | [], _ => true
  | _ :: _, [] => false
  | a :: as, b :: bs => a = b && isPrefixOfList as bs

/-- Fuelled worker for string splitting on a non-empty separator. -/
def splitOnStrAux (sep : List Char) : Nat → List Char → List Char →
    List (List Char)
  | 0, l, acc => [acc.reverse ++ l]
  | fuel + 1, l, acc =>
    match l with
    | [] => [acc.reverse]
    | x :: rest =>
      if isPrefixOfList sep l then
        acc.reverse :: splitOnStrAux sep fuel (l.drop sep.length) []
      else
        splitOnStrAux sep fuel rest (x :: acc)

/-- JS String.prototype.split with a string separator; an empty
separator splits into single characters. -/
def jsSplitOnStr (sep s : String) : List String :=
  if sep = "" then s.toList.map String.singleton
  else
    (splitOnStrAux sep.toList (s.toList.length + 1) s.toList []).map
      List.asString

/-- Split on the regex of an optional carriage return followed by a
newline: split at every newline character, then drop one trailing
carriage return from each piece. -/
def splitLinesJs (s : String) : List String :=
  (splitOnChar '\n' s.toList).map
    (fun l =>
      (if l.getLast? = some '\r' then l.dropLast else l).asString)

/-- Association-list lookup with string keys (models JS object property
access and Map.get; first binding wins). -/
def lookupStr {α : Type} : List (String × α) → String → Option α
  | [], _ => none
  | (k, v) :: rest, key => if k = key then some v else lookupStr rest key

/-- JS Map.prototype.set / object property assignment: replace the
binding in place when the key is present, otherwise append it. -/
def mapSet {α : Type} (m : List (String × α)) (key : String) (v : α) :
    List (String × α) :=
  if (lookupStr m key).isSome then
    m.map (fun p => if p.1 = key then (key, v) else p)
  else m ++ [(key, v)]

/-! ### JS number parsing (the Number built-in on strings) -/

/-- Numeric value of a decimal digit character. -/
def digitVal (c : Char) : Nat := c.toNat - '0'.toNat

/-- Hexadecimal digit test. -/
def isHexDigitJs (c : Char) : Bool :=
  c.isDigit || ('a' ≤ c && c ≤ 'f') || ('A' ≤ c && c ≤ 'F')

/-- Numeric value of a hexadecimal digit character. -/
def hexVal (c : Char) : Nat :=
  if c.isDigit then digitVal c
  else if 'a' ≤ c && c ≤ 'f' then c.toNat - 'a'.toNat + 10
  else c.toNat - 'A'.toNat + 10

/-- Accumulate a digit list in a given base. -/
def natOfDigits (base : Nat) (val : Char → Nat) (ds : List Char) : Nat :=
  ds.foldl (fun acc c => acc * base + val c) 0

/-- Parse the unsigned decimal part of a JS string numeric literal
(digits, optional fraction, optional exponent) carrying the sign in;
none models NaN, and Infinity is also mapped to none (non-finite).  The
value (sign * digits) / 10^fracLen * 10^exp is assembled with a single
mkRat over integer arithmetic. -/
def parseDec (sign : Int) (cs : List Char) : Option ℚ :=
  if cs = "Infinity".toList then none
  else
    let ip := cs.takeWhile Char.isDigit
    let r1 := cs.drop ip.length
    let hasDot : Bool := match r1 with | '.' :: _ => true | _ => false
    let fp := if hasDot then (r1.drop 1).takeWhile Char.isDigit else []
    let r2 := if hasDot then (r1.drop 1).drop fp.length else r1
    if ip.isEmpty && fp.isEmpty then none
    else
      let mant : Int := sign * (natOfDigits 10 digitVal (ip ++ fp) : Int)
      match r2 with
      | [] => some (mkRat mant (10 ^ fp.length))
      | c :: r3 =>
        if c = 'e' || c = 'E' then
          let signAndRest : Int × List Char :=
            match r3 with
            | '+' :: t => (1, t)
            | '-' :: t => (-1, t)
            | _ => (1, r3)
          let ed := signAndRest.2.takeWhile Char.isDigit
          if ed.isEmpty || !(signAndRest.2.drop ed.length).isEmpty then none
          else
            let e : Int := signAndRest.1 * (natOfDigits 10 digitVal ed : Int)
            if 0 ≤ e then
              some (mkRat (mant * 10 ^ e.toNat) (10 ^ fp.length))
            else some (mkRat mant (10 ^ fp.length * 10 ^ (-e).toNat))
        else none

/-- Parse an unsigned JS numeric literal: hexadecimal, octal and binary
prefixes (which do not admit a sign in JS) or a decimal literal. -/
def parseUnsigned (cs : List Char) : Option ℚ :=
  match cs with
  | '0' :: x :: rest =>
    if x = 'x' || x = 'X' then
      if !rest.isEmpty && rest.all isHexDigitJs then
        some (natOfDigits 16 hexVal rest : ℚ)
      else none
    else if x = 'o' || x = 'O' then
      if !rest.isEmpty && rest.all (fun c => '0' ≤ c && c ≤ '7') then
        some (natOfDigits 8 digitVal rest : ℚ)
      else none
    else if x = 'b' || x = 'B' then
      if !rest.isEmpty && rest.all (fun c => c = '0' || c = '1') then
        some (natOfDigits 2 digitVal rest : ℚ)
      else none
    else parseDec 1 cs
  | _ => parseDec 1 cs

/-- JS Number(string): trim, empty gives 0, optional sign on decimal
literals; none models NaN or an infinite result. -/
def jsStrToNum (s : String) : Option ℚ :=
  let t := jsTrim s
  if t = "" then some 0
  else
    match t.toList with
    | '+' :: rest => parseDec 1 rest
    | '-' :: rest => parseDec (-1) rest
    | cs => parseUnsigned cs

/-- JS Number.isFinite(Number(s)) together with the value: a parse whose
exact magnitude reaches 2^1024 overflows to Infinity and is dropped
(the bound is tested as a cross-multiplied integer comparison,
equivalent to the magnitude of the rational being below 2^1024). -/
def jsFiniteNum (s : String) : Option ℚ :=
  match jsStrToNum s with
  | some q => if q.num.natAbs < 2 ^ 1024 * q.den then some q else none
  | none => none

/-- JS String(number), used for scalar normalization; exact for
integers, approximated by the rational literal otherwise (all inputs in
the theorems below are integral). -/
def jsNumToString (q : ℚ) : String :=
  if q.den = 1 then toString q.num else toString q

/-! ### Budget (src/budget/Budget.ts)

Counters and limits are rationals (JS numbers); the current time is an
explicit parameter standing for Date.now().  Each operation returns the
optional breach kind together with the (possibly updated) state, which
models in-place mutation plus a thrown BudgetExceeded. -/

structure BudgetState where
  maxSteps : ℚ
  maxSubCalls : ℚ
  maxDepth : ℚ
  maxPromptReadChars : ℚ
  maxTimeMs : ℚ
  stepsUsed : ℚ
  subCallsUsed : ℚ
  depth : ℚ
  promptReadCharsUsed : ℚ
  startedAt : ℚ
deriving DecidableEq, Repr

inductive BudgetKind
  | maxSteps
  | maxSubCalls
  | maxDepth
  | maxPromptReadChars
  | maxTimeMs
deriving DecidableEq, Repr

/-- Partial&lt;BudgetState&gt;: every field optional. -/
structure PartialBudget where
  maxSteps : Option ℚ := none
  maxSubCalls : Option ℚ := none
  maxDepth : Option ℚ := none
  maxPromptReadChars : Option ℚ := none
  maxTimeMs : Option ℚ := none
  stepsUsed : Option ℚ := none
  subCallsUsed : Option ℚ := none
  depth : Option ℚ := none
  promptReadCharsUsed : Option ℚ := none
  startedAt : Option ℚ := none
deriving DecidableEq, Repr

/-- Object spread over the default budget: override fields win when
present; startedAt falls back to the current time. -/
def defaultBudget (override : PartialBudget) (now : ℚ) : BudgetState where
  maxSteps := override.maxSteps.getD 32
  maxSubCalls := override.maxSubCalls.getD 32
  maxDepth := override.maxDepth.getD 4
  maxPromptReadChars := override.maxPromptReadChars.getD 200000
  maxTimeMs := override.maxTimeMs.getD 30000
  stepsUsed := override.stepsUsed.getD 0
  subCallsUsed := override.subCallsUsed.getD 0
  depth := override.depth.getD 0
  promptReadCharsUsed := override.promptReadCharsUsed.getD 0
  startedAt := override.startedAt.getD now

/-- ensureTimeBudget: breach when the elapsed time strictly exceeds
maxTimeMs. -/
def ensureTimeBudget (now : ℚ) (b : BudgetState) : Option BudgetKind :=
  if now - b.startedAt > b.maxTimeMs then some .maxTimeMs else none

/-- consumeRootStep: time check, then step-limit check, then increment. -/
def consumeRootStep (now : ℚ) (b : BudgetState) :
    Option BudgetKind × BudgetState :=
  match ensureTimeBudget now b with
  | some k => (some k, b)
  | none =>
    if b.stepsUsed + 1 > b.maxSteps then (some .maxSteps, b)
    else (none, { b with stepsUsed := b.stepsUsed + 1 })

/-- consumeSubCall: time check, then sub-call-limit check, then
increment. -/
def consumeSubCall (now : ℚ) (b : BudgetState) :
    Option BudgetKind × BudgetState :=
  match ensureTimeBudget now b with
  | some k => (some k, b)
  | none =>
    if b.subCallsUsed + 1 > b.maxSubCalls then (some .maxSubCalls, b)
    else (none, { b with subCallsUsed := b.subCallsUsed + 1 })

/-- ensureNextDepth: pure check, no state change. -/
def ensureNextDepth (b : BudgetState) : Option BudgetKind :=
  if b.depth + 1 > b.maxDepth then some .maxDepth else none

/-- consumePromptChars: skip non-positive charges; otherwise time check,
limit check, then add the charge. -/
def consumePromptChars (now : ℚ) (b : BudgetState) (chars : ℚ) :
    Option BudgetKind × BudgetState :=
  if chars ≤ 0 then (none, b)
  else
    match ensureTimeBudget now b with
    | some k => (some k, b)
    | none =>
      if b.promptReadCharsUsed + chars > b.maxPromptReadChars then
        (some .maxPromptReadChars, b)
      else (none, { b with promptReadCharsUsed := b.promptReadCharsUsed + chars })

/-! ### Child budget derivation (src/rlm/root.ts: makeChildBudget, initEnv) -/

/-- Object spread of two partial budgets; the second one's present
fields win. -/
def mergePartialBudget (a b : PartialBudget) : PartialBudget where
  maxSteps := b.maxSteps.or a.maxSteps
  maxSubCalls := b.maxSubCalls.or a.maxSubCalls
  maxDepth := b.maxDepth.or a.maxDepth
  maxPromptReadChars := b.maxPromptReadChars.or a.maxPromptReadChars
  maxTimeMs := b.maxTimeMs.or a.maxTimeMs
  stepsUsed := b.stepsUsed.or a.stepsUsed
  subCallsUsed := b.subCallsUsed.or a.subCallsUsed
  depth := b.depth.or a.depth
  promptReadCharsUsed := b.promptReadCharsUsed.or a.promptReadCharsUsed
  startedAt := b.startedAt.or a.startedAt

/-- makeChildBudget: spread subBudget then the per-call override, then
force maxDepth (override or parent) and startedAt (override or the
current time, Date.now() at spawn). -/
def makeChildBudget (parent : BudgetState) (subBudget override : PartialBudget)
    (now : ℚ) : PartialBudget :=
  { mergePartialBudget subBudget override with
    maxDepth := some (override.maxDepth.getD parent.maxDepth)
    startedAt := some (override.startedAt.getD now) }

/-- The budget part of initEnv: the override spread with depth forced to
the environment's depth and startedAt defaulted to the current time. -/
def initEnvBudget (budgetOverride : PartialBudget) (depth : ℚ) (now : ℚ) :
    BudgetState :=
  defaultBudget
    { budgetOverride with
      depth := some depth
      startedAt := some (budgetOverride.startedAt.getD now) }
    now

/-- Budget of a spawned child environment: runChild composes
makeChildBudget (at spawn time nowSpawn) with initEnv at depth
parent.depth + 1 (at time nowInit). -/
def spawnChildBudget (parent : BudgetState) (subBudget override : PartialBudget)
    (nowSpawn nowInit : ℚ) : BudgetState :=
  initEnvBudget (makeChildBudget parent subBudget override nowSpawn)
    (parent.depth + 1) nowInit

/-! ### JSON values (results of JSON.parse) and stringification -/

/-- Parsed JSON value.  A missing object property is modelled by the
surrounding Option (undefined), distinct from the null constructor. -/
inductive JSValue
  | null
  | bool (b : Bool)
  | num (q : ℚ)
  | str (s : String)
  | arr (xs : List JSValue)
  | obj (fields : List (String × JSValue))

/-- Four-digit lowercase hexadecimal rendering for control-character
escapes. -/
def hex4 (n : Nat) : String :=
  let d : Nat → Char := fun k =>
    if k < 10 then Char.ofNat ('0'.toNat + k) else Char.ofNat ('a'.toNat + k - 10)
  List.asString [d (n / 4096 % 16), d (n / 256 % 16), d (n / 16 % 16), d (n % 16)]

/-- JSON string escaping as performed by JSON.stringify. -/
def jsonEscapeChar (c : Char) : String :=
  if c = '"' then "\\\""
  else if c = '\\' then "\\\\"
  else if c = '\n' then "\\n"
  else if c = '\r' then "\\r"
  else if c = '\t' then "\\t"
  else if c = '\x08' then "\\b"
  else if c = '\x0c' then "\\f"
  else if c.toNat < 32 then "\\u" ++ hex4 c.toNat
  else String.singleton c

/-- Escape every character of a string for JSON output. -/
def jsonEscape (s : String) : String :=
  String.join (s.toList.map jsonEscapeChar)

/-- Comma-join a list of rendered fragments. -/
def joinComma (l : List String) : String :=
  String.intercalate "," l

/-- JSON.stringify (no undefined values arise in the shapes we build;
object key order is the construction order). -/
def jsonStringify : JSValue → String
  | .null => "null"
  | .bool b => if b then "true" else "false"
  | .num q => jsNumToString q
  | .str s => "\"" ++ jsonEscape s ++ "\""
  | .arr xs =>
    "[" ++ joinComma (xs.attach.map (fun x => jsonStringify x.1)) ++ "]"
  | .obj fields =>
    "\x7b" ++
      joinComma (fields.attach.map
        (fun f => "\"" ++ jsonEscape f.1.1 ++ "\":" ++ jsonStringify f.1.2)) ++
      "\x7d"
decreasing_by
  · have := List.sizeOf_lt_of_mem x.2
    simp_all
    omega
  · obtain ⟨⟨k, v⟩, hmem⟩ := f
    have := List.sizeOf_lt_of_mem hmem
    simp_all
    omega

/-! ### First-JSON-object extraction (src/util/json.ts) -/

/-- Loop state of extractFirstJSONObject. -/
structure JsonScanState where
  start : Int
  depth : Int
  inString : Bool
  escaped : Bool
deriving Repr

/-- One iteration of the extractFirstJSONObject scan; returns an updated
state or, when a balanced object closes, the result index. -/
def jsonScanStep (st : JsonScanState) (i : Nat) (ch : Char) :
    JsonScanState ⊕ Nat :=
  if st.start < 0 then
    if ch = '{' then .inl { st with start := i, depth := 1 } else .inl st
  else if st.inString then
    if st.escaped then .inl { st with escaped := false }
    else if ch = '\\' then .inl { st with escaped := true }
    else if ch = '"' then .inl { st with inString := false }
    else .inl st
  else if ch = '"' then .inl { st with inString := true }
  else if ch = '{' then .inl { st with depth := st.depth + 1 }
  else if ch = '}' then
    if st.depth - 1 = 0 then .inr i
    else .inl { st with depth := st.depth - 1 }
  else .inl st

/-- Run the scan over the remaining characters. -/
def jsonScanAux (s : String) : JsonScanState → Nat → List Char → Option String
  | _, _, [] => none
  | st, i, ch :: rest =>
    match jsonScanStep st i ch with
    | .inl st2 => jsonScanAux s st2 (i + 1) rest
    | .inr stop =>
      some (List.asString ((s.toList.drop st.start.toNat).take (stop + 1 - st.start.toNat)))

/-- extractFirstJSONObject: first balanced brace-delimited object,
tolerant of surrounding text and string-embedded braces. -/
def extractFirstJSONObject (input : String) : Option String :=
  jsonScanAux input ⟨-1, 0, false, false⟩ 0 input.toList

/-! ### DSL actions (src/repl/DSL.ts) and coercion (src/rlm/root.ts) -/

inductive DocParseFormat
  | auto | text | markdown | csv
deriving DecidableEq, Repr

inductive CsvRowComparator
  | eq | contains | gt | gte | lt | lte
deriving DecidableEq, Repr

/-- A CSV column selector: a JS number or a header name. -/
inductive ColKey
  | num (q : ℚ)
  | name (s : String)
deriving DecidableEq, Repr

/-- A scalar DSL value (string, number, boolean or null). -/
inductive Scalar
  | str (s : String)
  | num (q : ℚ)
  | boolean (b : Bool)
  | null
deriving DecidableEq, Repr

/-- The DSL union type, one constructor per action shape. -/
inductive DSL
  | prompt_meta
  | doc_parse (format : Option DocParseFormat) (delimiter : Option String) (out : String)
  | doc_select_section (in_ : String) (title : String) (out : String)
  | doc_table_sum (in_ : String) (column : ColKey) (out : String)
  | doc_select_rows (in_ : String) (column : ColKey)
      (comparator : Option CsvRowComparator) (value : Option Scalar)
      (equals : Option Scalar) (out : String)
  | doc_project_columns (in_ : String) (columns : List ColKey) (out : String)
      (separator : Option String) (includeHeader : Option Bool)
  | slice_prompt (start : ℚ) (end_ : ℚ) (out : String)
  | find (needle : String) (from_ : Option ℚ) (out : String)
  | chunk_newlines (maxLines : ℚ) (out : String)
  | chunk_tokens (maxTokens : ℚ) (overlap : Option ℚ) (out : String)
  | sum_csv_column (column : ℚ) (delimiter : Option String) (out : String)
  | pick_word (index : Option ℚ) (out : String)
  | call_symbol (symbol : String) (out : String)
      (args : Option (List (String × JSValue))) (input : Option JSValue)
  | sub_map (in_ : String) (queryTemplate : String) (out : String)
      (limit : Option ℚ) (concurrency : Option ℚ)
  | reduce_join (in_ : String) (sep : String) (out : String)
  | set (path : String) (value : JSValue)
  | finalize (from_ : String)

/-- Nullish coalescing x ?? d where x is an optionally-present property:
undefined and null both fall through to the default. -/
def coalesce (v : Option JSValue) (d : JSValue) : JSValue :=
  match v with
  | some .null => d
  | some x => x
  | none => d

/-- The x !== undefined && x !== null guard. -/
def isPresent (v : Option JSValue) : Bool :=
  match v with
  | some .null => false
  | some _ => true
  | none => false

/-- asString: strings pass, everything else is an error. -/
def asString (v : JSValue) (label : String) : Except String String :=
  match v with
  | .str s => .ok s
  | _ => .error (label ++ " must be string")

/-- asNumber: finite numbers pass; non-blank strings are converted via
Number and must come out finite. -/
def asNumber (v : JSValue) (label : String) : Except String ℚ :=
  match v with
  | .num q => .ok q
  | .str s =>
    if jsTrim s ≠ "" then
      match jsFiniteNum s with
      | some q => .ok q
      | none => .error (label ++ " must be number")
    else .error (label ++ " must be number")
  | _ => .error (label ++ " must be number")

/-- asStringOrNumber, producing a column key. -/
def asStringOrNumber (v : JSValue) (label : String) : Except String ColKey :=
  match v with
  | .str s => if jsTrim s ≠ "" then .ok (.name s) else .error (label ++ " must be string or number")
  | .num q => .ok (.num q)
  | _ => .error (label ++ " must be string or number")

/-- asDocParseFormat. -/
def asDocParseFormat (v : JSValue) (label : String) : Except String DocParseFormat := do
  let s ← asString v label
  if s = "auto" then .ok .auto
  else if s = "text" then .ok .text
  else if s = "markdown" then .ok .markdown
  else if s = "csv" then .ok .csv
  else .error (label ++ " must be auto|text|markdown|csv")

/-- asScalar. -/
def asScalar (v : JSValue) (label : String) : Except String Scalar :=
  match v with
  | .null => .ok .null
  | .str s => .ok (.str s)
  | .num q => .ok (.num q)
  | .bool b => .ok (.boolean b)
  | _ => .error (label ++ " must be string|number|boolean|null")

/-- asBoolean: booleans pass, the strings true and false are accepted. -/
def asBoolean (v : JSValue) (label : String) : Except String Bool :=
  match v with
  | .bool b => .ok b
  | .str s =>
    if s = "true" then .ok true
    else if s = "false" then .ok false
    else .error (label ++ " must be boolean")
  | _ => .error (label ++ " must be boolean")

/-- asColumnList: non-empty array of strings or numbers. -/
def asColumnList (v : JSValue) (label : String) : Except String (List ColKey) :=
  match v with
  | .arr items =>
    if items.isEmpty then .error (label ++ " must be non-empty array")
    else
      let rec go : List JSValue → Nat → Except String (List ColKey)
        | [], _ => .ok []
        | x :: rest, i => do
          let c ← asStringOrNumber x (label ++ "[" ++ toString i ++ "]")
          let cs ← go rest (i + 1)
          .ok (c :: cs)
      go items 0
  | _ => .error (label ++ " must be non-empty array")

/-- asCsvComparator. -/
def asCsvComparator (v : JSValue) (label : String) : Except String CsvRowComparator := do
  let s ← asString v label
  if s = "eq" then .ok .eq
  else if s = "contains" then .ok .contains
  else if s = "gt" then .ok .gt
  else if s = "gte" then .ok .gte
  else if s = "lt" then .ok .lt
  else if s = "lte" then .ok .lte
  else .error (label ++ " must be eq|contains|gt|gte|lt|lte")

/-- coerceDSL (src/rlm/root.ts): normalize a raw LM-emitted JSON value
into a well-typed action, or fail with a short reason.  The switch has
no chunk_tokens (and no call_symbol) case, so those op strings reach the
default arm. -/
def coerceDSL (raw : JSValue) : Except String DSL :=
  match raw with
  | .obj row => do
    let op ← asString (coalesce (lookupStr row "op") .null) "op"
    if op = "prompt_meta" then
      .ok .prompt_meta
    else if op = "doc_parse" then do
      let format ←
        if isPresent (lookupStr row "format") then do
          let f ← asDocParseFormat ((lookupStr row "format").getD .null) "doc_parse.format"
          pure (some f)
        else pure none
      let delim ←
        if isPresent (lookupStr row "delimiter") then do
          let d ← asString ((lookupStr row "delimiter").getD .null) "doc_parse.delimiter"
          pure (some d)
        else pure none
      let out ← asString (coalesce (lookupStr row "out") (.str "doc")) "doc_parse.out"
      .ok (.doc_parse format delim out)
    else if op = "doc_select_section" then do
      let in_ ← asString (coalesce (lookupStr row "in") (.str "doc")) "doc_select_section.in"
      let title ← asString
        (coalesce (lookupStr row "title")
          (coalesce (lookupStr row "section") (.str "Introduction")))
        "doc_select_section.title"
      let out ← asString (coalesce (lookupStr row "out") (.str "answer")) "doc_select_section.out"
      .ok (.doc_select_section in_ title out)
    else if op = "doc_table_sum" then do
      let in_ ← asString (coalesce (lookupStr row "in") (.str "doc")) "doc_table_sum.in"
      let column ← asStringOrNumber (coalesce (lookupStr row "column") (.num 1)) "doc_table_sum.column"
      let out ← asString (coalesce (lookupStr row "out") (.str "total")) "doc_table_sum.out"
      .ok (.doc_table_sum in_ column out)
    else if op = "doc_select_rows" then do
      let in_ ← asString (coalesce (lookupStr row "in") (.str "doc")) "doc_select_rows.in"
      let column ← asStringOrNumber
        (coalesce (lookupStr row "column")
          (coalesce (lookupStr row "whereColumn") (.num 0)))
        "doc_select_rows.column"
      let comparator ←
        if isPresent (lookupStr row "comparator") then do
          let c ← asCsvComparator ((lookupStr row "comparator").getD .null) "doc_select_rows.comparator"
          pure (some c)
        else if isPresent (lookupStr row "operator") then do
          let c ← asCsvComparator ((lookupStr row "operator").getD .null) "doc_select_rows.operator"
          pure (some c)
        else pure none
      let value ← asScalar
        (coalesce (lookupStr row "equals")
          (coalesce (lookupStr row "value")
            (coalesce (lookupStr row "match") (.str ""))))
        "doc_select_rows.value"
      let out ← asString (coalesce (lookupStr row "out") (.str "rows")) "doc_select_rows.out"
      .ok (.doc_select_rows in_ column comparator (some value) none out)
    else if op = "doc_project_columns" then do
      let in_ ← asString (coalesce (lookupStr row "in") (.str "doc")) "doc_project_columns.in"
      let columns ← asColumnList
        (coalesce (lookupStr row "columns")
          (coalesce (lookupStr row "cols") (.arr [.num 0])))
        "doc_project_columns.columns"
      let out ← asString (coalesce (lookupStr row "out") (.str "lines")) "doc_project_columns.out"
      let separator ←
        if isPresent (lookupStr row "separator") then do
          let s ← asString ((lookupStr row "separator").getD .null) "doc_project_columns.separator"
          pure (some s)
        else if isPresent (lookupStr row "sep") then do
          let s ← asString ((lookupStr row "sep").getD .null) "doc_project_columns.sep"
          pure (some s)
        else pure none
      let includeHeader ←
        if isPresent (lookupStr row "includeHeader") then do
          let b ← asBoolean ((lookupStr row "includeHeader").getD .null) "doc_project_columns.includeHeader"
          pure (some b)
        else pure none
      .ok (.doc_project_columns in_ columns out separator includeHeader)
    else if op = "slice_prompt" then do
      let start ← asNumber ((lookupStr row "start").getD .null) "slice_prompt.start"
      let end_ ← asNumber ((lookupStr row "end").getD .null) "slice_prompt.end"
      let out ← asString
        (coalesce (lookupStr row "out")
          (coalesce (lookupStr row "from") (.str "chunk")))
        "slice_prompt.out"
      .ok (.slice_prompt start end_ out)
    else if op = "find" then do
      let needle ← asString ((lookupStr row "needle").getD .null) "find.needle"
      let from_ ←
        if isPresent (lookupStr row "from") then do
          let q ← asNumber ((lookupStr row "from").getD .null) "find.from"
          pure (some q)
        else pure none
      let out ← asString (coalesce (lookupStr row "out") (.str "hits")) "find.out"
      .ok (.find needle from_ out)
    else if op = "chunk_newlines" then do
      let maxLines ← asNumber (coalesce (lookupStr row "maxLines") (.num 20)) "chunk_newlines.maxLines"
      let out ← asString (coalesce (lookupStr row "out") (.str "chunks")) "chunk_newlines.out"
      .ok (.chunk_newlines maxLines out)
    else if op = "sub_map" then do
      let in_ ← asString (coalesce (lookupStr row "in") (.str "chunks")) "sub_map.in"
      let queryTemplate ← asString
        (coalesce (lookupStr row "queryTemplate")
          (coalesce (lookupStr row "template") (.str "{{item}}")))
        "sub_map.queryTemplate"
      let out ← asString (coalesce (lookupStr row "out") (.str "mapped")) "sub_map.out"
      let limit ←
        if isPresent (lookupStr row "limit") then do
          let q ← asNumber ((lookupStr row "limit").getD .null) "sub_map.limit"
          pure (some q)
        else pure none
      .ok (.sub_map in_ queryTemplate out limit none)
    else if op = "sum_csv_column" then do
      let column ← asNumber (coalesce (lookupStr row "column") (.num 1)) "sum_csv_column.column"
      let delim ←
        if isPresent (lookupStr row "delimiter") then do
          let d ← asString ((lookupStr row "delimiter").getD .null) "sum_csv_column.delimiter"
          pure (some d)
        else pure none
      let out ← asString (coalesce (lookupStr row "out") (.str "total")) "sum_csv_column.out"
      .ok (.sum_csv_column column delim out)
    else if op = "pick_word" then do
      let index ←
        if isPresent (lookupStr row "index") then do
          let q ← asNumber ((lookupStr row "index").getD .null) "pick_word.index"
          pure (some q)
        else pure none
      let out ← asString (coalesce (lookupStr row "out") (.str "picked")) "pick_word.out"
      .ok (.pick_word index out)
    else if op = "reduce_join" then do
      let in_ ← asString (coalesce (lookupStr row "in") (.str "mapped")) "reduce_join.in"
      let sep ← asString (coalesce (lookupStr row "sep") (.str "\n")) "reduce_join.sep"
      let out ← asString (coalesce (lookupStr row "out") (.str "joined")) "reduce_join.out"
      .ok (.reduce_join in_ sep out)
    else if op = "set" then do
      let path ←
        if isPresent (lookupStr row "path") then
          asString ((lookupStr row "path").getD .null) "set.path"
        else do
          let key ← asString (coalesce (lookupStr row "key") (.str "answer")) "set.key"
          pure ("scratch." ++ key)
      .ok (.set path
        (coalesce (lookupStr row "value")
          (coalesce (lookupStr row "answer")
            (coalesce (lookupStr row "result") (.str "")))))
    else if op = "finalize" then do
      let from_ ← asString
        (coalesce (lookupStr row "from")
          (coalesce (lookupStr row "path")
            (coalesce (lookupStr row "key") (.str "answer"))))
        "finalize.from"
      .ok (.finalize from_)
    else
      .error ("unknown op: " ++ op)
  | _ => .error "DSL must be object"

/-! ### Structured CSV documents (src/doc/StructuredDocument.ts) -/

/-- looksNumeric: non-blank after trimming and Number produces a finite
value. -/
def looksNumeric (input : String) : Bool :=
  let normalized := jsTrim input
  if normalized.length = 0 then false
  else (jsFiniteNum normalized).isSome

/-- Character class approximations for the regex classes of Unicode
letters and numbers (modelled over ASCII; every concrete input in this
file is ASCII). -/
def unicodeLetter (c : Char) : Bool := c.isAlpha

/-- ASCII approximation of the Unicode decimal-number class. -/
def unicodeNumber (c : Char) : Bool := c.isDigit

/-- isLikelyHeaderCell: non-blank, not numeric, and an identifier-like
token (letter or underscore, then letters, digits, underscore or
hyphen). -/
def isLikelyHeaderCell (input : String) : Bool :=
  let normalized := jsTrim input
  if normalized.length = 0 then false
  else if looksNumeric normalized then false
  else
    match normalized.toList with
    | [] => false
    | c :: rest =>
      (unicodeLetter c || c = '_') &&
        rest.all (fun d => unicodeLetter d || unicodeNumber d || d = '_' || d = '-')

/-- The line preprocessing of parseCsv: split, trim, drop blanks. -/
def splitCsvLines (prompt : String) : List String :=
  ((splitLinesJs prompt).map jsTrim).filter (fun l => l.length > 0)

/-- The cell rows of parseCsv: split each line on the delimiter and trim
cells. -/
def csvCellRows (prompt : String) (delimiter : String) : List (List String) :=
  (splitCsvLines prompt).map
    (fun line => (jsSplitOnStr delimiter line).map jsTrim)

/-- Header detection of parseCsv: the numeric hint (some column goes
from non-numeric to numeric between the first two rows) OR the name
hint (a non-empty first row of identifier-like cells); both hints need
a second row. -/
def csvHasHeader (rows : List (List String)) : Bool :=
  match rows with
  | first :: second :: _ =>
    ((List.range first.length).any (fun i =>
      match first.get? i, second.get? i with
      | some cell, some next => !looksNumeric cell && looksNumeric next
      | _, _ => false))
    || (!first.isEmpty && first.all isLikelyHeaderCell)
  | _ => false

/-- An in-memory CSV document. -/
structure CsvDocument where
  lineCount : Nat
  rawLength : Nat
  delimiter : String
  headers : List String
  rows : List (List String)
deriving DecidableEq, Repr

/-- parseCsv: split into trimmed non-blank lines, split cells, detect a
header row, and fall back to synthetic col0..colN headers. -/
def parseCsv (prompt : String) (delimiter : String) : CsvDocument :=
  let lines := splitCsvLines prompt
  let rows := csvCellRows prompt delimiter
  let hasHeader := csvHasHeader rows
  let firstLen := (rows.headD []).length
  { lineCount := lines.length
    rawLength := prompt.length
    delimiter := delimiter
    headers :=
      if hasHeader then rows.headD []
      else (List.range firstLen).map (fun i => "col" ++ toString i)
    rows := if hasHeader then rows.drop 1 else rows }

/-- parseStructuredDocument with format csv dispatches to parseCsv with
the delimiter defaulted to a comma. -/
def parseStructuredDocumentCsv (prompt : String) (delimiter : Option String) :
    CsvDocument :=
  parseCsv prompt (delimiter.getD ",")

/-- Modelled from the spec sentence of claim C4 (for comparison with the
source behaviour): treat row 0 as header exactly when the first row is
all non-numeric AND at least one column is non-numeric in row 0 while
numeric in row 1. -/
def claimHeaderCondition (rows : List (List String)) : Bool :=
  match rows with
  | first :: second :: _ =>
    first.all (fun c => !looksNumeric c) &&
      ((List.range first.length).any (fun i =>
        match first.get? i, second.get? i with
        | some cell, some next => !looksNumeric cell && looksNumeric next
        | _, _ => false))
  | _ => false

/-! ### Row filtering over a heap of string arrays (filterCsvRows)

To state the frame and freshness properties of filterCsvRows (the rows
of the source document are not mutated, and the filtered document
shares no row arrays with the source), arrays of strings live in an
explicit arena heap and documents hold references into it; the spread
copy of each retained row becomes a fresh allocation. -/

abbrev Heap := List (List String)

/-- A CSV document whose headers array and row arrays are references
into a heap. -/
structure CsvDocRef where
  delimiter : String
  headersRef : Nat
  rowRefs : List Nat
deriving DecidableEq, Repr

/-- Dereference a heap cell (out-of-range reads give the empty array;
well-formed documents never hit that case). -/
def derefRow (h : Heap) (r : Nat) : List String :=
  (h.get? r).getD []

/-- All references of a document point into the heap. -/
def docWF (h : Heap) (doc : CsvDocRef) : Prop :=
  doc.headersRef < h.length ∧ ∀ r ∈ doc.rowRefs, r < h.length

/-- normalizeScalar: null becomes the empty string, anything else is
stringified and trimmed. -/
def normalizeScalar (v : Scalar) : String :=
  match v with
  | .null => ""
  | .str s => jsTrim s
  | .num q => jsTrim (jsNumToString q)
  | .boolean b => jsTrim (if b then "true" else "false")

/-- compareNumeric: both sides must convert to finite numbers, else
false. -/
def compareNumeric (actual expected : String) (pred : ℚ → ℚ → Bool) : Bool :=
  match jsFiniteNum actual, jsFiniteNum expected with
  | some a, some b => pred a b
  | _, _ => false

/-- compareScalar over trimmed string forms. -/
def compareScalar (actual expected : String) (c : CsvRowComparator) : Bool :=
  match c with
  | .eq => actual = expected
  | .contains => decide (expected.toList <:+: actual.toList)
  | .gt => compareNumeric actual expected (fun a b => a > b)
  | .gte => compareNumeric actual expected (fun a b => a ≥ b)
  | .lt => compareNumeric actual expected (fun a b => a < b)
  | .lte => compareNumeric actual expected (fun a b => a ≤ b)

/-- resolveCsvColumnIndex: a non-negative integer index passes through;
a string is matched against headers exactly, then case-insensitively. -/
def resolveCsvColumnIndex (headers : List String) (column : ColKey) :
    Except String Nat :=
  match column with
  | .num q =>
    if q.den = 1 ∧ 0 ≤ q.num then .ok q.num.toNat
    else .error "doc_table_sum.column must be non-negative integer"
  | .name s =>
    match headers.findIdx? (fun hdr => hdr = s) with
    | some i => .ok i
    | none =>
      match headers.findIdx? (fun hdr => jsToLower hdr = jsToLower s) with
      | some i => .ok i
      | none => .error ("csv column not found: " ++ s)

/-- The row predicate of filterCsvRows: normalize the addressed cell
(missing cells read as the empty string) and compare with the expected
scalar. -/
def filterRowPred (h : Heap) (idx : Nat) (expected : String)
    (comparator : CsvRowComparator) (r : Nat) : Bool :=
  compareScalar (normalizeScalar (.str (((derefRow h r).get? idx).getD "")))
    expected comparator

/-- filterCsvRows on the heap model: resolve the column, keep the rows
whose cell matches, and allocate a fresh copy of every retained row
(the spread copy); the result document keeps the same headers
reference (the object spread) but entirely fresh row references. -/
def filterCsvRows (h : Heap) (doc : CsvDocRef) (column : ColKey)
    (comparator : Option CsvRowComparator) (value : Scalar) :
    Except String (Heap × CsvDocRef) := do
  let idx ← resolveCsvColumnIndex (derefRow h doc.headersRef) column
  let cmp := comparator.getD .eq
  let expected := normalizeScalar value
  let kept := doc.rowRefs.filter (filterRowPred h idx expected cmp)
  let newRefs := (List.range kept.length).map (fun i => h.length + i)
  let h2 := h ++ kept.map (fun r => derefRow h r)
  .ok (h2, { doc with rowRefs := newRefs })

/-! ### The slice_prompt arm of DSLRepl.execInner (src/repl/DSLRepl.ts)

The environment is restricted to the parts this arm touches: the prompt
text (the document store read resolves to a slice of it), the budget,
and the scratch bindings written by the arm (strings).  The JSON stdout
summary string is not modelled. -/

/-- Errors of an interpreter arm: a thrown BudgetExceeded or a
validation failure with its message. -/
inductive ExecErr
  | budgetExceeded (kind : BudgetKind)
  | err (msg : String)
deriving DecidableEq, Repr

/-- Environment slice for the slice_prompt arm. -/
structure SliceEnv where
  prompt : String
  budget : BudgetState
  scratch : List (String × String)
deriving DecidableEq, Repr

/-- slice_prompt: validate out, clamp start to 0 and end to start,
charge end - start prompt characters (before reading), then read the
slice and store it.  The start and end numbers are finite by the
numeric model, so the finiteness validation never fires. -/
def slicePromptExec (now : ℚ) (env : SliceEnv) (start end_ : ℚ)
    (out : String) : Except ExecErr SliceEnv :=
  if out = "" then .error (.err "slice_prompt.out must be non-empty string")
  else
    let st := max 0 start
    let en := max st end_
    match consumePromptChars now env.budget (en - st) with
    | (some k, _) => .error (.budgetExceeded k)
    | (none, b2) =>
      let value := jsSliceQ env.prompt st en
      .ok { env with budget := b2, scratch := mapSet env.scratch out value }

/-! ### Trace events and the sub-RLM runner (src/rlm/subRLM.ts) -/

/-- Bounded preview: value.slice(0, maxChars) guarded by non-positive
maxChars. -/
def cut (value : String) (maxChars : ℚ) : String :=
  if maxChars ≤ 0 then "" else jsSliceQ value 0 maxChars

/-- StdoutMeta (src/trace/Trace.ts): length, bounded preview, and up to
16 scratch keys. -/
structure StdoutMeta where
  length : Nat
  preview : String
  keys : List String
deriving DecidableEq, Repr

/-- makeStdoutMeta. -/
def makeStdoutMeta (stdout : String) (scratchKeys : List String)
    (maxChars : ℚ) : StdoutMeta :=
  { length := stdout.length
    preview := cut stdout maxChars
    keys := scratchKeys.take 16 }

/-- Trace events; the payloads not needed by the claims carry their
previews only. -/
inductive TraceEvent
  | root_step (step : ℚ) (stdoutMeta : StdoutMeta)
  | repl_exec (step : ℚ) (stdout : String) (stdoutMeta : StdoutMeta)
  | sub_call (depth : ℚ) (query : String) (resultMeta : StdoutMeta) (cached : Bool)
deriving DecidableEq, Repr

/-- Per-call options of a sub-RLM invocation. -/
structure SubRLMOptions where
  prompt : Option String := none
  budget : Option PartialBudget := none
deriving DecidableEq, Repr

/-- The environment slice the sub-RLM runner touches. -/
structure SubEnv where
  prompt : String
  promptId : String
  cache : List (String × String)
  budget : BudgetState
  trace : List TraceEvent
deriving DecidableEq, Repr

/-- JSON encoding of a partial budget (present fields in declaration
order, mirroring the BudgetState interface order). -/
def partialBudgetJson (b : PartialBudget) : JSValue :=
  .obj
    ((match b.maxSteps with | some q => [("maxSteps", JSValue.num q)] | none => []) ++
     (match b.maxSubCalls with | some q => [("maxSubCalls", JSValue.num q)] | none => []) ++
     (match b.maxDepth with | some q => [("maxDepth", JSValue.num q)] | none => []) ++
     (match b.maxPromptReadChars with | some q => [("maxPromptReadChars", JSValue.num q)] | none => []) ++
     (match b.maxTimeMs with | some q => [("maxTimeMs", JSValue.num q)] | none => []) ++
     (match b.stepsUsed with | some q => [("stepsUsed", JSValue.num q)] | none => []) ++
     (match b.subCallsUsed with | some q => [("subCallsUsed", JSValue.num q)] | none => []) ++
     (match b.depth with | some q => [("depth", JSValue.num q)] | none => []) ++
     (match b.promptReadCharsUsed with | some q => [("promptReadCharsUsed", JSValue.num q)] | none => []) ++
     (match b.startedAt with | some q => [("startedAt", JSValue.num q)] | none => []))

/-- JSON encoding of options ?? an empty object. -/
def subOptionsJson (options : Option SubRLMOptions) : JSValue :=
  match options with
  | none => .obj []
  | some o =>
    .obj
      ((match o.prompt with | some p => [("prompt", JSValue.str p)] | none => []) ++
       (match o.budget with | some b => [("budget", partialBudgetJson b)] | none => []))

/-- The serialized cache-key record of a sub-call. -/
def subCacheKeyJson (promptId query subPrompt : String)
    (options : Option SubRLMOptions) : String :=
  jsonStringify (.obj
    [("promptId", .str promptId), ("query", .str query),
     ("subPrompt", .str subPrompt), ("options", subOptionsJson options)])

/-- The sub-call fingerprint: hashString (the 16-hex prefix of a sha256
from node:crypto) applied to the serialized record; the hash itself is
an external primitive and is therefore passed in as a function. -/
def subCacheKey (hash : String → String) (promptId query subPrompt : String)
    (options : Option SubRLMOptions) : String :=
  hash (subCacheKeyJson promptId query subPrompt options)

/-- The sub-prompt of a sub-call: options?.prompt ?? env.prompt. -/
def subPromptOf (env : SubEnv) (options : Option SubRLMOptions) : String :=
  (options.bind (fun o => o.prompt)).getD env.prompt

/-- createSubRLMRunner (src/rlm/subRLM.ts): on a cache hit, push a
cached sub_call event and return the cached final without touching the
budget; on a miss, check the depth, consume a sub-call, run the child
(a pure parameter standing for the child root loop), store the final
under the fingerprint, and push an uncached sub_call event. -/
def runSubRLM (hash : String → String)
    (runChild : String → String → Option SubRLMOptions → String)
    (now : ℚ) (metaPreviewChars : ℚ) (env : SubEnv)
    (query : String) (options : Option SubRLMOptions) :
    Except BudgetKind (String × SubEnv) :=
  let subPrompt := subPromptOf env options
  let cacheKey := subCacheKey hash env.promptId query subPrompt options
  match lookupStr env.cache cacheKey with
  | some cached =>
    .ok (cached,
      { env with
        trace := env.trace ++
          [.sub_call (env.budget.depth + 1) query
            (makeStdoutMeta cached [] metaPreviewChars) true] })
  | none =>
    match ensureNextDepth env.budget with
    | some k => .error k
    | none =>
      match consumeSubCall now env.budget with
      | (some k, _) => .error k
      | (none, b2) =>
        let final := runChild subPrompt query options
        .ok (final,
          { env with
            budget := b2
            cache := mapSet env.cache cacheKey final
            trace := env.trace ++
              [.sub_call (b2.depth + 1) query
                (makeStdoutMeta final [] metaPreviewChars) false] })

/-! ### Improvement loop (src/improve/index.ts)

Metric values are JS numbers that may be non-finite, modelled as
Option of a rational (none = NaN or infinite). -/

abbrev JSNum := Option ℚ

abbrev MetricsMap := List (String × JSNum)

inductive MetricDirection
  | maximize | minimize
deriving DecidableEq, Repr

inductive MetricComparator
  | lt | lte | gt | gte | eq
deriving DecidableEq, Repr

inductive ConstraintSource
  | absolute | delta | ratio | delta_ratio
deriving DecidableEq, Repr

structure ImprovementObjective where
  key : String
  direction : MetricDirection
  weight : Option JSNum := none
deriving DecidableEq, Repr

structure ImprovementConstraint where
  key : String
  comparator : MetricComparator
  value : ℚ
  source : Option ConstraintSource := none
deriving DecidableEq, Repr

structure ImprovementPolicy where
  objectives : List ImprovementObjective
  constraints : Option (List ImprovementConstraint) := none
  minScoreDelta : Option ℚ := none
deriving DecidableEq, Repr

structure MetricSnapshot where
  metrics : MetricsMap
  gates : Option (List (String × Bool)) := none
deriving DecidableEq, Repr

/-- validatePolicy: objectives must be non-empty (every direction is
valid by typing). -/
def validatePolicy (policy : ImprovementPolicy) : Option String :=
  if policy.objectives.isEmpty then some "policy.objectives must be non-empty"
  else none

/-- The per-objective accumulation of scoreSnapshot: Number of a
missing or non-finite metric is NaN (metric_missing); the weight
defaults to 1 and must be finite and positive, else invalid_weight;
the oriented value times the weight is added. -/
def scoreObjectives : List ImprovementObjective → MetricsMap → ℚ →
    Except String ℚ
  | [], _, acc => .ok acc
  | o :: rest, metrics, acc =>
    match (lookupStr metrics o.key).getD none with
    | none => .error ("metric_missing:" ++ o.key)
    | some value =>
      match o.weight.getD (some 1) with
      | none => .error ("invalid_weight:" ++ o.key)
      | some w =>
        if w ≤ 0 then .error ("invalid_weight:" ++ o.key)
        else
          scoreObjectives rest metrics
            (acc + (match o.direction with
                    | .maximize => value
                    | .minimize => -value) * w)

/-- scoreSnapshot. -/
def scoreSnapshot (snapshot : MetricSnapshot) (policy : ImprovementPolicy) :
    Except String ℚ :=
  match validatePolicy policy with
  | some e => .error e
  | none => scoreObjectives policy.objectives snapshot.metrics 0

/-- compareMetric. -/
def compareMetric (value : ℚ) (c : MetricComparator) (expected : ℚ) : Bool :=
  match c with
  | .lt => value < expected
  | .lte => value ≤ expected
  | .gt => value > expected
  | .gte => value ≥ expected
  | .eq => value = expected

/-- toConstraintTarget: ratio sources with a zero baseline produce NaN
(none). -/
def toConstraintTarget (source : ConstraintSource) (metric baseline : ℚ) :
    JSNum :=
  match source with
  | .absolute => some metric
  | .delta => some (metric - baseline)
  | .ratio => if baseline = 0 then none else some (metric / baseline)
  | .delta_ratio =>
    if baseline = 0 then none else some ((metric - baseline) / baseline)

/-- The reason produced by one constraint, tagged with whether it marks
the snapshot invalid. -/
def constraintReason (metrics baselineMetrics : MetricsMap)
    (c : ImprovementConstraint) : Option (String × Bool) :=
  match (lookupStr metrics c.key).getD none with
  | none => some ("metric_missing:" ++ c.key, true)
  | some metric =>
    let baselineValue : ℚ :=
      match (lookupStr baselineMetrics c.key).getD none with
      | some b => b
      | none => 0
    match toConstraintTarget (c.source.getD .absolute) metric baselineValue with
    | none => some ("invalid_constraint_source:" ++ c.key, true)
    | some target =>
      if compareMetric target c.comparator c.value then none
      else some ("constraint_failed:" ++ c.key, false)

/-- Deduplicate reasons keeping first occurrences (the Set-based loop). -/
def dedupeReasons (reasons : List String) : List String :=
  reasons.foldl (fun acc r => if acc.contains r then acc else acc ++ [r]) []

/-- validateSnapshot: non-finite metrics, missing objective metrics,
constraint failures, failed gates; an invalid marker is prepended when
any invalid reason occurred. -/
def validateSnapshot (snapshot : MetricSnapshot) (policy : ImprovementPolicy)
    (baseline : MetricSnapshot) : List String :=
  let invalidMetrics := snapshot.metrics.filterMap
    (fun p => match p.2 with
              | none => some ("invalid_metric:" ++ p.1)
              | some _ => none)
  let missing := policy.objectives.filterMap
    (fun o => match (lookupStr snapshot.metrics o.key).getD none with
              | none => some ("metric_missing:" ++ o.key)
              | some _ => none)
  let constraintResults := (policy.constraints.getD []).filterMap
    (constraintReason snapshot.metrics baseline.metrics)
  let gateReasons := (snapshot.gates.getD []).filterMap
    (fun p => if p.2 then none else some ("gate_failed:" ++ p.1))
  let invalid :=
    !invalidMetrics.isEmpty || !missing.isEmpty ||
      constraintResults.any (fun r => r.2)
  let reasons :=
    invalidMetrics ++ missing ++ constraintResults.map Prod.fst ++ gateReasons
  dedupeReasons (if invalid then "invalid_snapshot" :: reasons else reasons)

/-- hasMissingMetricReason. -/
def hasMissingMetricReason (reasons : List String) : Bool :=
  reasons.any (fun r => r = "invalid_snapshot" || isPrefixOfList "metric_missing:".toList r.toList)

structure Candidate (α : Type) where
  id : String
  input : α
deriving DecidableEq, Repr

structure ImprovementResult (α : Type) where
  candidate : Candidate α
  accepted : Bool
  reasons : List String
  snapshot : Option MetricSnapshot := none
  score : Option ℚ := none
  scoreDelta : Option ℚ := none
  error : Option String := none
deriving DecidableEq, Repr

structure ImprovementContext (α : Type) where
  baseline : MetricSnapshot
  baselineScore : ℚ
  accepted : List (ImprovementResult α)
  index : Nat
deriving DecidableEq, Repr

structure ImprovementReport (α : Type) where
  policy : ImprovementPolicy
  baseline : MetricSnapshot
  baselineScore : ℚ
  results : List (ImprovementResult α)
  bestAccepted : Option (ImprovementResult α) := none
deriving DecidableEq, Repr

/-- The candidate loop of runImprovementLoop; a throwing evaluator (or
a scoreSnapshot throw inside the try) yields an evaluation_error
result.  The baseline moves on acceptance only when
updateBaselineOnAccept is set. -/
def improvementLoopAux {α : Type} (policy : ImprovementPolicy)
    (evaluate : Candidate α → ImprovementContext α → Except String MetricSnapshot)
    (updateOnAccept : Bool) :
    List (Candidate α) → Nat → MetricSnapshot → ℚ →
    List (ImprovementResult α) → List (ImprovementResult α) →
    List (ImprovementResult α)
  | [], _, _, _, results, _ => results
  | c :: rest, i, curB, curS, results, acceptedRs =>
    match evaluate c ⟨curB, curS, acceptedRs, i⟩ with
    | .error e =>
      improvementLoopAux policy evaluate updateOnAccept rest (i + 1) curB curS
        (results ++ [{ candidate := c, accepted := false,
                       reasons := ["evaluation_error"], error := some e }])
        acceptedRs
    | .ok snapshot =>
      let reasons := validateSnapshot snapshot policy curB
      if reasons.contains "invalid_snapshot" || hasMissingMetricReason reasons then
        let accepted := reasons.isEmpty
        let r : ImprovementResult α :=
          { candidate := c, accepted := accepted, reasons := reasons,
            snapshot := some snapshot }
        improvementLoopAux policy evaluate updateOnAccept rest (i + 1)
          (if accepted && updateOnAccept then snapshot else curB) curS
          (results ++ [r]) (if accepted then acceptedRs ++ [r] else acceptedRs)
      else
        match scoreSnapshot snapshot policy with
        | .error e =>
          improvementLoopAux policy evaluate updateOnAccept rest (i + 1) curB curS
            (results ++ [{ candidate := c, accepted := false,
                           reasons := ["evaluation_error"], error := some e }])
            acceptedRs
        | .ok score =>
          let scoreDelta := score - curS
          let reasons2 :=
            if scoreDelta < policy.minScoreDelta.getD 0 then
              reasons ++ ["score_delta_too_small"]
            else reasons
          let accepted := reasons2.isEmpty
          let r : ImprovementResult α :=
            { candidate := c, accepted := accepted, reasons := reasons2,
              snapshot := some snapshot, score := some score,
              scoreDelta := some scoreDelta }
          improvementLoopAux policy evaluate updateOnAccept rest (i + 1)
            (if accepted && updateOnAccept then snapshot else curB)
            (if accepted && updateOnAccept then score else curS)
            (results ++ [r]) (if accepted then acceptedRs ++ [r] else acceptedRs)

/-- pickBestAccepted: the accepted result with the maximal score (the
first one wins ties). -/
def pickBestAccepted {α : Type} (results : List (ImprovementResult α)) :
    Option (ImprovementResult α) :=
  results.foldl
    (fun best r =>
      if !r.accepted then best
      else
        match r.score with
        | none => best
        | some sc =>
          match best with
          | none => some r
          | some b =>
            match b.score with
            | some bs => if sc > bs then some r else best
            | none => best)
    none

/-- runImprovementLoop. -/
def runImprovementLoop {α : Type} (policy : ImprovementPolicy)
    (baseline : MetricSnapshot) (candidates : List (Candidate α))
    (evaluate : Candidate α → ImprovementContext α → Except String MetricSnapshot)
    (updateBaselineOnAccept : Bool) : Except String (ImprovementReport α) :=
  match validatePolicy policy with
  | some e => .error e
  | none =>
    match scoreSnapshot baseline policy with
    | .error e => .error e
    | .ok baseScore =>
      let results := improvementLoopAux policy evaluate updateBaselineOnAccept
        candidates 0 baseline baseScore [] []
      .ok { policy := policy, baseline := baseline, baselineScore := baseScore,
            results := results, bestAccepted := pickBestAccepted results }

/-! ### Long-run loop (src/improve/longRun.ts) -/

structure LongRunContext (α σ : Type) where
  iteration : Nat
  state : σ
  baseline : MetricSnapshot
  baselineScore : ℚ
  rounds : List (ImprovementReport α)
  acceptedHistory : List (ImprovementResult α)

structure LongRunReport (α σ : Type) where
  rounds : List (ImprovementReport α)
  acceptedHistory : List (ImprovementResult α)
  finalBaseline : MetricSnapshot
  finalBaselineScore : ℚ
  finalState : σ

/-- The iteration loop of runLongImprovementLoop, with the remaining
iteration count as fuel.  An empty candidate generation stops the
loop; a best accepted result (with its snapshot) renews the baseline,
its score, and optionally the state; otherwise stopWhenNoAccept may
stop the loop. -/
def longRunAux {α σ : Type} (policy : ImprovementPolicy)
    (generateCandidates : LongRunContext α σ → List (Candidate α))
    (evaluate : Candidate α → LongRunContext α σ → Except String MetricSnapshot)
    (onAccepted : Option (ImprovementResult α → LongRunContext α σ → σ))
    (stopWhenNoAccept : Bool) :
    Nat → Nat → σ → MetricSnapshot → ℚ →
    List (ImprovementReport α) → List (ImprovementResult α) →
    Except String (LongRunReport α σ)
  | 0, _, state, baseline, score, rounds, hist =>
    .ok ⟨rounds, hist, baseline, score, state⟩
  | fuel + 1, iteration, state, baseline, score, rounds, hist =>
    let ctx : LongRunContext α σ := ⟨iteration, state, baseline, score, rounds, hist⟩
    let candidates := generateCandidates ctx
    if candidates.isEmpty then .ok ⟨rounds, hist, baseline, score, state⟩
    else
      match runImprovementLoop policy baseline candidates
        (fun c _ => evaluate c ctx) false with
      | .error e => .error e
      | .ok round =>
        let rounds2 := rounds ++ [round]
        let hist2 := hist ++ round.results.filter (fun r => r.accepted)
        match round.bestAccepted with
        | some best =>
          match best.snapshot with
          | some snap =>
            match (match best.score with
                   | some sc => Except.ok sc
                   | none => scoreSnapshot snap policy) with
            | .error e => .error e
            | .ok newScore =>
              let state2 :=
                match onAccepted with
                | some f => f best ctx
                | none => state
              longRunAux policy generateCandidates evaluate onAccepted
                stopWhenNoAccept fuel (iteration + 1) state2 snap newScore
                rounds2 hist2
          | none =>
            if stopWhenNoAccept then .ok ⟨rounds2, hist2, baseline, score, state⟩
            else
              longRunAux policy generateCandidates evaluate onAccepted
                stopWhenNoAccept fuel (iteration + 1) state baseline score
                rounds2 hist2
        | none =>
          if stopWhenNoAccept then .ok ⟨rounds2, hist2, baseline, score, state⟩
          else
            longRunAux policy generateCandidates evaluate onAccepted
              stopWhenNoAccept fuel (iteration + 1) state baseline score
              rounds2 hist2

/-- runLongImprovementLoop: score the baseline, clamp the iteration
count, and run the loop from iteration 0 with empty accumulators. -/
def runLongImprovementLoop {α σ : Type} (policy : ImprovementPolicy)
    (baseline : MetricSnapshot) (initialState : σ) (maxIterations : ℚ)
    (stopWhenNoAccept : Bool)
    (generateCandidates : LongRunContext α σ → List (Candidate α))
    (evaluate : Candidate α → LongRunContext α σ → Except String MetricSnapshot)
    (onAccepted : Option (ImprovementResult α → LongRunContext α σ → σ)) :
    Except String (LongRunReport α σ) :=
  match scoreSnapshot baseline policy with
  | .error e => .error e
  | .ok baselineScore =>
    longRunAux policy generateCandidates evaluate onAccepted stopWhenNoAccept
      (max 0 (Int.floor maxIterations)).toNat 0 initialState baseline
      baselineScore [] []

/-- A round report with a best accepted result carrying a snapshot. -/
def hasBestSnap {α : Type} (round : ImprovementReport α) : Prop :=
  ∃ best snap, round.bestAccepted = some best ∧ best.snapshot = some snap

/-! ### Planner plan coercion (src/planner/index.ts) -/

inductive PlanMode
  | single | long_run
deriving DecidableEq, Repr

inductive PlanProfile
  | pure | hybrid
deriving DecidableEq, Repr

structure PlannerObjectiveSpec where
  key : String
  direction : MetricDirection
  symbol : String
  weight : Option ℚ := none
deriving DecidableEq, Repr

structure PlannerConstraintSpec where
  key : String
  comparator : MetricComparator
  value : ℚ
  symbol : Option String := none
  source : Option ConstraintSource := none
deriving DecidableEq, Repr

structure PlannerLongRunSpec where
  objectives : List PlannerObjectiveSpec
  constraints : Option (List PlannerConstraintSpec) := none
  maxIterations : Option Int := none
  stopWhenNoAccept : Option Bool := none
  minScoreDelta : Option ℚ := none
deriving DecidableEq, Repr

structure RLMPlannerPlan where
  kind : String := "rlm_plan"
  version : ℚ := 1
  mode : PlanMode
  task : String
  profile : Option PlanProfile := none
  symbols : Option (List String) := none
  budget : Option PartialBudget := none
  requirePromptReadBeforeFinalize : Option Bool := none
  enableHeuristicPostprocess : Option Bool := none
  enableEarlyStopHeuristic : Option Bool := none
  longRun : Option PlannerLongRunSpec := none
deriving DecidableEq, Repr

/-- isRecord: an object (not null, not an array). -/
def isRecord (v : JSValue) : Bool :=
  match v with
  | .obj _ => true
  | _ => false

/-- pickString: a string with non-blank trim. -/
def pickString (v : Option JSValue) : Option String :=
  match v with
  | some (.str s) => if jsTrim s ≠ "" then some s else none
  | _ => none

/-- pickStringArray: the non-empty strings of an array, when any. -/
def pickStringArray (v : Option JSValue) : Option (List String) :=
  match v with
  | some (.arr items) =>
    let out := items.filterMap
      (fun x => match x with
                | .str s => if s ≠ "" then some s else none
                | _ => none)
    if out.isEmpty then none else some out
  | _ => none

/-- coerceBudget: keep the finite numeric limit fields of an object;
an empty pick means no budget. -/
def coerceBudget (v : Option JSValue) : Option PartialBudget :=
  match v with
  | some (.obj fields) =>
    let pick : String → Option ℚ := fun k =>
      match lookupStr fields k with
      | some (.num q) => some q
      | _ => none
    let out : PartialBudget :=
      { maxSteps := pick "maxSteps", maxSubCalls := pick "maxSubCalls",
        maxDepth := pick "maxDepth",
        maxPromptReadChars := pick "maxPromptReadChars",
        maxTimeMs := pick "maxTimeMs" }
    if out = ({} : PartialBudget) then none else some out
  | _ => none

/-- One objective row of coerceLongRunSpec; rows that are not records
or miss key, direction or symbol are skipped. -/
def coerceObjectiveRow (v : JSValue) : Option PlannerObjectiveSpec :=
  match v with
  | .obj row =>
    let key := pickString (lookupStr row "key")
    let direction : Option MetricDirection :=
      match lookupStr row "direction" with
      | some (.str s) =>
        if s = "minimize" then some .minimize
        else if s = "maximize" then some .maximize
        else none
      | _ => none
    let symbol := pickString (lookupStr row "symbol")
    match key, direction, symbol with
    | some k, some d, some sym =>
      some { key := k, direction := d, symbol := sym,
             weight := match lookupStr row "weight" with
                       | some (.num q) => some q
                       | _ => none }
    | _, _, _ => none
  | _ => none

/-- One constraint row of coerceLongRunSpec. -/
def coerceConstraintRow (v : JSValue) : Option PlannerConstraintSpec :=
  match v with
  | .obj row =>
    let key := pickString (lookupStr row "key")
    let comparator : Option MetricComparator :=
      match lookupStr row "comparator" with
      | some (.str s) =>
        if s = "lt" then some .lt
        else if s = "lte" then some .lte
        else if s = "gt" then some .gt
        else if s = "gte" then some .gte
        else if s = "eq" then some .eq
        else none
      | _ => none
    let value : Option ℚ :=
      match lookupStr row "value" with
      | some (.num q) => some q
      | _ => none
    match key, comparator, value with
    | some k, some c, some q =>
      some { key := k, comparator := c, value := q,
             symbol := pickString (lookupStr row "symbol"),
             source := match lookupStr row "source" with
                       | some (.str s) =>
                         if s = "absolute" then some .absolute
                         else if s = "delta" then some .delta
                         else if s = "ratio" then some .ratio
                         else if s = "delta_ratio" then some .delta_ratio
                         else none
                       | _ => none }
    | _, _, _ => none
  | _ => none

/-- The coerced constraint rows of a longRun spec (the rows that fail
to coerce are skipped; a non-array gives no constraints). -/
def coerceConstraintRows (v : Option JSValue) : List PlannerConstraintSpec :=
  match v with
  | some (.arr rows) => rows.filterMap coerceConstraintRow
  | _ => []

/-- coerceLongRunSpec: requires a record with a non-empty array of
objective rows of which at least one coerces; invalid rows are
skipped. -/
def coerceLongRunSpec (input : Option JSValue) : Option PlannerLongRunSpec :=
  match input with
  | some (.obj fields) =>
    match lookupStr fields "objectives" with
    | some (.arr objectivesRaw) =>
      if objectivesRaw.isEmpty then none
      else if (objectivesRaw.filterMap coerceObjectiveRow).isEmpty then none
      else
        some
          { objectives := objectivesRaw.filterMap coerceObjectiveRow
            constraints :=
              if (coerceConstraintRows (lookupStr fields "constraints")).isEmpty
              then none
              else some (coerceConstraintRows (lookupStr fields "constraints"))
            maxIterations :=
              match lookupStr fields "maxIterations" with
              | some (.num q) => some (max 1 (Int.floor q))
              | _ => none
            stopWhenNoAccept :=
              match lookupStr fields "stopWhenNoAccept" with
              | some (.bool b) => some b
              | _ => none
            minScoreDelta :=
              match lookupStr fields "minScoreDelta" with
              | some (.num q) => some q
              | _ => none }
    | _ => none
  | _ => none

/-- makeDefaultSinglePlan: the fallback plan. -/
def makeDefaultSinglePlan (task : String) (availableSymbols : List String) :
    RLMPlannerPlan :=
  { mode := .single, task := task,
    symbols := if availableSymbols.isEmpty then none else some availableSymbols }

/-- The final mode and attached longRun spec of a coerced plan: the raw
mode string selects long_run, which is kept only when a valid longRun
spec coerced (the plan.mode = single reassignment of the source);
single mode never carries a longRun spec. -/
def planModeAndLongRun (rawMode : Option JSValue)
    (lr : Option PlannerLongRunSpec) : PlanMode × Option PlannerLongRunSpec :=
  let mode : PlanMode :=
    match rawMode with
    | some (.str s) => if s = "long_run" then .long_run else .single
    | _ => .single
  match mode, lr with
  | .long_run, some spec => (.long_run, some spec)
  | .long_run, none => (.single, none)
  | .single, _ => (.single, none)

/-- coercePlannerPlan: non-records fall back to the default plan; the
mode is long_run only when the raw mode says so AND a valid longRun
spec coerces, otherwise a long_run mode degrades to single. -/
def coercePlannerPlan (raw : JSValue) (fallbackTask : String)
    (availableSymbols : List String) : RLMPlannerPlan :=
  match raw with
  | .obj row =>
    let task := (pickString (lookupStr row "task")).getD fallbackTask
    let profile : Option PlanProfile :=
      match lookupStr row "profile" with
      | some (.str s) =>
        if s = "pure" then some .pure
        else if s = "hybrid" then some .hybrid
        else none
      | _ => none
    let symbols := pickStringArray (lookupStr row "symbols")
    let budget := coerceBudget (lookupStr row "budget")
    let pickBool : String → Option Bool := fun k =>
      match lookupStr row k with
      | some (.bool b) => some b
      | _ => none
    let modeAndLongRun :=
      planModeAndLongRun (lookupStr row "mode")
        (coerceLongRunSpec (lookupStr row "longRun"))
    let symbols2 :=
      match symbols with
      | some s => some s
      | none => if availableSymbols.isEmpty then none else some availableSymbols
    { mode := modeAndLongRun.1
      task := task
      profile := profile
      symbols := symbols2
      budget := budget
      requirePromptReadBeforeFinalize := pickBool "requirePromptReadBeforeFinalize"
      enableHeuristicPostprocess := pickBool "enableHeuristicPostprocess"
      enableEarlyStopHeuristic := pickBool "enableEarlyStopHeuristic"
      longRun := modeAndLongRun.2 }
  | _ => makeDefaultSinglePlan fallbackTask availableSymbols

/-- createRLMPlan, modelled from the planner LM response onward: the
LM text is a parameter, JSON.parse (a JS built-in) is an abstract
parameter returning none when it throws, and any extraction or parse
failure falls back to the default single plan. -/
def createRLMPlan (jsonParse : String → Option JSValue) (llmText : String)
    (input : String) (availableSymbols : List String) : RLMPlannerPlan :=
  match extractFirstJSONObject llmText with
  | none => makeDefaultSinglePlan input availableSymbols
  | some objText =>
    match jsonParse objText with
    | none => makeDefaultSinglePlan input availableSymbols
    | some v => coercePlannerPlan v input availableSymbols

/-- The four counters of a budget state never move down. -/
def countersMono (a b : BudgetState) : Prop :=
  a.stepsUsed ≤ b.stepsUsed ∧ a.subCallsUsed ≤ b.subCallsUsed ∧
    a.promptReadCharsUsed ≤ b.promptReadCharsUsed ∧ a.depth ≤ b.depth

/-- Sign of an objective value per its direction. -/
def orientedValue (d : MetricDirection) (v : ℚ) : ℚ :=
  match d with
  | .maximize => v
  | .minimize => -v

/-- objective.weight ?? 1, read down to the rational (1 when absent). -/
def effectiveWeight (o : ImprovementObjective) : ℚ :=
  (o.weight.getD (some 1)).getD 1

/-! ## Theorems -/

/-- C6: for every budget state within its time budget, consumeRootStep
fails with the maxSteps kind and leaves stepsUsed unchanged when one
more step would exceed maxSteps, and otherwise increments stepsUsed by
exactly one; a successful consumeRootStep leaves stepsUsed at most
maxSteps, and no budget operation (consumeRootStep, consumeSubCall,
consumePromptChars, at any time and charge) decreases a counter. -/
theorem c6_consume_step_budget (now : ℚ) (b : BudgetState)
    (htime : now - b.startedAt ≤ b.maxTimeMs) :
    (b.stepsUsed + 1 > b.maxSteps →
      consumeRootStep now b = (some .maxSteps, b)) ∧
    (b.stepsUsed + 1 ≤ b.maxSteps →
      consumeRootStep now b =
        (none, { b with stepsUsed := b.stepsUsed + 1 })) ∧
    ((consumeRootStep now b).1 = none →
      ((consumeRootStep now b).2).stepsUsed ≤ b.maxSteps) ∧
    (∀ now2 : ℚ, countersMono b ((consumeRootStep now2 b).2)) ∧
    (∀ now2 : ℚ, countersMono b ((consumeSubCall now2 b).2)) ∧
    (∀ now2 chars : ℚ, countersMono b ((consumePromptChars now2 b chars).2)) := by
  have hnot : ensureTimeBudget now b = none := by
    simp only [ensureTimeBudget, ite_eq_right_iff]
    intro hgt
    linarith
  refine ⟨?_, ?_, ?_, ?_, ?_, ?_⟩
  · intro hover
    simp only [consumeRootStep, hnot]
    rw [if_pos hover]
  · intro hle
    simp only [consumeRootStep, hnot]
    rw [if_neg (by linarith)]
  · intro hok
    simp only [consumeRootStep] at hok ⊢
    cases het : ensureTimeBudget now b with
    | some k => simp [het] at hok
    | none =>
      simp only [het] at hok ⊢
      by_cases hover : b.stepsUsed + 1 > b.maxSteps
      · rw [if_pos hover] at hok
        simp at hok
      · rw [if_neg hover] at hok ⊢
        simp only
        linarith
  · intro now2
    simp only [consumeRootStep]
    cases het : ensureTimeBudget now2 b with
    | some k => simp [countersMono]
    | none =>
      by_cases hover : b.stepsUsed + 1 > b.maxSteps
      · rw [if_pos hover]
        simp [countersMono]
      · rw [if_neg hover]
        simp only [countersMono]
        refine ⟨by linarith, le_refl _, le_refl _, le_refl _⟩
  · intro now2
    simp only [consumeSubCall]
    cases het : ensureTimeBudget now2 b with
    | some k => simp [countersMono]
    | none =>
      by_cases hover : b.subCallsUsed + 1 > b.maxSubCalls
      · rw [if_pos hover]
        simp [countersMono]
      · rw [if_neg hover]
        simp only [countersMono]
        refine ⟨le_refl _, by linarith, le_refl _, le_refl _⟩
  · intro now2 chars
    simp only [consumePromptChars]
    by_cases hskip : chars ≤ 0
    · rw [if_pos hskip]
      simp [countersMono]
    · rw [if_neg hskip]
      cases het : ensureTimeBudget now2 b with
      | some k => simp [countersMono]
      | none =>
        by_cases hover : b.promptReadCharsUsed + chars > b.maxPromptReadChars
        · rw [if_pos hover]
          simp [countersMono]
        · rw [if_neg hover]
          simp only [countersMono]
          refine ⟨le_refl _, le_refl _, by linarith, le_refl _⟩

/-- C6 witness: the default budget at time 0 is inside its time budget
and consuming one step increments stepsUsed from 0 to 1. -/
theorem c6_consume_step_budget_witness :
    ((0 : ℚ) - (defaultBudget {} 0).startedAt ≤ (defaultBudget {} 0).maxTimeMs) ∧
    ((defaultBudget {} 0).stepsUsed + 1 ≤ (defaultBudget {} 0).maxSteps ∧
      consumeRootStep 0 (defaultBudget {} 0) =
        (none, { defaultBudget {} 0 with
                  stepsUsed := (defaultBudget {} 0).stepsUsed + 1 })) :=
  ⟨by norm_num [defaultBudget],
    ⟨by norm_num [defaultBudget],
      (c6_consume_step_budget 0 (defaultBudget {} 0)
          (by norm_num [defaultBudget])).2.1
        (by norm_num [defaultBudget])⟩⟩

/-- C2 counterexample: with no per-call override, a child spawned at
time 5 from a parent whose clock started at 0 gets startedAt 5, not the
parent's startedAt, refuting the claim that the child's startedAt
equals the parent's. -/
theorem c2_child_started_at_counterexample :
    (spawnChildBudget (defaultBudget {} 0) {} {} 5 7).startedAt = 5 ∧
    (defaultBudget {} 0).startedAt = 0 ∧ (5 : ℚ) ≠ 0 :=
  ⟨rfl, rfl, by norm_num⟩

/-- C2 (amended): a spawned child budget has startedAt equal to the
per-call override's startedAt when given and otherwise the spawn time
(Date.now()), not the parent's startedAt; maxDepth is the override's or
else the parent's; depth is parent.depth + 1; and the three usage
counters are zero provided neither the subBudget defaults nor the
per-call override set them. -/
theorem c2_child_budget_derivation (parent : BudgetState)
    (subBudget override : PartialBudget) (nowSpawn nowInit : ℚ)
    (hs1 : subBudget.stepsUsed = none) (ho1 : override.stepsUsed = none)
    (hs2 : subBudget.subCallsUsed = none) (ho2 : override.subCallsUsed = none)
    (hs3 : subBudget.promptReadCharsUsed = none)
    (ho3 : override.promptReadCharsUsed = none) :
    (spawnChildBudget parent subBudget override nowSpawn nowInit).startedAt =
      override.startedAt.getD nowSpawn ∧
    (spawnChildBudget parent subBudget override nowSpawn nowInit).maxDepth =
      override.maxDepth.getD parent.maxDepth ∧
    (spawnChildBudget parent subBudget override nowSpawn nowInit).depth =
      parent.depth + 1 ∧
    (spawnChildBudget parent subBudget override nowSpawn nowInit).stepsUsed = 0 ∧
    (spawnChildBudget parent subBudget override nowSpawn nowInit).subCallsUsed = 0 ∧
    (spawnChildBudget parent subBudget override nowSpawn nowInit).promptReadCharsUsed = 0 := by
  simp [spawnChildBudget, initEnvBudget, makeChildBudget, mergePartialBudget,
    defaultBudget, hs1, ho1, hs2, ho2, hs3, ho3, Option.or]

/-- C2 witness: a parent with clock 0, an override carrying startedAt 9
and maxDepth 7, spawn time 5: the child starts at 9, keeps maxDepth 7,
sits at depth 1 and has fresh counters. -/
theorem c2_child_budget_derivation_witness :
    ({ startedAt := some 9, maxDepth := some 7 } : PartialBudget).stepsUsed = none ∧
    ((spawnChildBudget (defaultBudget {} 0) {}
        { startedAt := some 9, maxDepth := some 7 } 5 7).startedAt =
      (({ startedAt := some 9, maxDepth := some 7 } : PartialBudget).startedAt).getD 5 ∧
     (spawnChildBudget (defaultBudget {} 0) {}
        { startedAt := some 9, maxDepth := some 7 } 5 7).maxDepth =
      (({ startedAt := some 9, maxDepth := some 7 } : PartialBudget).maxDepth).getD
        (defaultBudget {} 0).maxDepth ∧
     (spawnChildBudget (defaultBudget {} 0) {}
        { startedAt := some 9, maxDepth := some 7 } 5 7).depth =
      (defaultBudget {} 0).depth + 1 ∧
     (spawnChildBudget (defaultBudget {} 0) {}
        { startedAt := some 9, maxDepth := some 7 } 5 7).stepsUsed = 0 ∧
     (spawnChildBudget (defaultBudget {} 0) {}
        { startedAt := some 9, maxDepth := some 7 } 5 7).subCallsUsed = 0 ∧
     (spawnChildBudget (defaultBudget {} 0) {}
        { startedAt := some 9, maxDepth := some 7 } 5 7).promptReadCharsUsed = 0) :=
  ⟨rfl,
    c2_child_budget_derivation (defaultBudget {} 0) {}
      { startedAt := some 9, maxDepth := some 7 } 5 7 rfl rfl rfl rfl rfl rfl⟩

/-- C1: a chunk_tokens action never executes: the root loop's coerceDSL
has no case for it, so for every maxTokens, optional overlap and out
key (and hence for every prompt) the action is rejected as an unknown
op before reaching the interpreter, whose own switch also lacks the
case.  This contradicts the DSL type declaration, the README, and the
repl tests, which expect sliding-window chunking. -/
theorem c1_chunk_tokens_unknown_op (maxTokens : ℚ) (overlap : Option ℚ)
    (out : String) :
    coerceDSL (.obj
      ([("op", .str "chunk_tokens"), ("maxTokens", .num maxTokens)] ++
        (match overlap with
         | some q => [("overlap", JSValue.num q)]
         | none => []) ++
        [("out", .str out)])) = .error "unknown op: chunk_tokens" := by
  cases overlap <;> rfl

theorem scoreObjectives_eq_ok (metrics : MetricsMap) (f : String → ℚ) :
    ∀ (l : List ImprovementObjective) (acc : ℚ),
    (∀ o ∈ l, lookupStr metrics o.key = some (some (f o.key))) →
    (∀ o ∈ l, ∃ w : ℚ, o.weight.getD (some 1) = some w ∧ 0 < w) →
    scoreObjectives l metrics acc =
      .ok (acc + (l.map
        (fun o => orientedValue o.direction (f o.key) * effectiveWeight o)).sum) := by
  intro l
  induction l with
  | nil => intro acc _ _; simp [scoreObjectives]
  | cons o rest ih =>
    intro acc hm hw
    have hmo := hm o (List.mem_cons_self o rest)
    obtain ⟨w, hwo, hwpos⟩ := hw o (List.mem_cons_self o rest)
    have hweq : effectiveWeight o = w := by
      simp [effectiveWeight, hwo]
    simp only [scoreObjectives, hmo, Option.getD_some, hwo]
    rw [if_neg (by linarith)]
    rw [ih (acc + (match o.direction with
          | .maximize => f o.key
          | .minimize => -f o.key) * w)
        (fun o2 h2 => hm o2 (List.mem_cons_of_mem o h2))
        (fun o2 h2 => hw o2 (List.mem_cons_of_mem o h2))]
    congr 1
    simp only [List.map_cons, List.sum_cons, hweq, orientedValue]
    cases o.direction <;> ring

/-- C5 (amended): scoreSnapshot equals the sum over objectives of the
direction-oriented metric value times the effective weight (default 1),
provided every objective's metric is present and finite and every
effective weight is finite and strictly positive; a weight of zero is
rejected with invalid_weight (see the counterexample), so only strictly
positive weights are permitted.  In particular a single-objective
minimize policy scores -metric * weight. -/
theorem c5_score_snapshot (snapshot : MetricSnapshot)
    (policy : ImprovementPolicy) (f : String → ℚ)
    (hne : policy.objectives ≠ [])
    (hm : ∀ o ∈ policy.objectives,
      lookupStr snapshot.metrics o.key = some (some (f o.key)))
    (hw : ∀ o ∈ policy.objectives,
      ∃ w : ℚ, o.weight.getD (some 1) = some w ∧ 0 < w) :
    scoreSnapshot snapshot policy =
      .ok ((policy.objectives.map
        (fun o => orientedValue o.direction (f o.key) * effectiveWeight o)).sum) ∧
    (∀ (key : String) (v w : ℚ), 0 < w →
      scoreSnapshot ⟨[(key, some v)], none⟩
          ⟨[⟨key, .minimize, some (some w)⟩], none, none⟩ = .ok (-v * w)) := by
  constructor
  · have hempty : policy.objectives.isEmpty = false := by
      cases h : policy.objectives with
      | nil => exact absurd h hne
      | cons a l => simp
    simp only [scoreSnapshot, validatePolicy, hempty, Bool.false_eq_true,
      if_false]
    rw [scoreObjectives_eq_ok snapshot.metrics f policy.objectives 0 hm hw]
    rw [zero_add]
  · intro key v w hwpos
    have hl : lookupStr [(key, (some v : JSNum))] key = some (some v) := by
      simp [lookupStr]
    simp only [scoreSnapshot, validatePolicy, List.isEmpty_cons,
      Bool.false_eq_true, if_false, scoreObjectives, hl, Option.getD_some]
    rw [if_neg (not_le.mpr hwpos)]
    simp [scoreObjectives]

/-- C5 counterexample: the claim permits any weight at least 0, but a
single minimize objective with weight 0 makes scoreSnapshot throw
invalid_weight instead of returning score 0. -/
theorem c5_zero_weight_counterexample :
    scoreSnapshot ⟨[("m", some 3)], none⟩
        ⟨[⟨"m", .minimize, some (some 0)⟩], none, none⟩ =
      .error "invalid_weight:m" := by
  rfl

/-- C5 witness: a single minimize objective on metric m = 3 with the
default weight scores -3. -/
theorem c5_score_snapshot_witness :
    (([⟨"m", .minimize, none⟩] : List ImprovementObjective) ≠ []) ∧
    scoreSnapshot ⟨[("m", some 3)], none⟩
        ⟨[⟨"m", .minimize, none⟩], none, none⟩ = .ok (-3) := by
  refine ⟨by simp, ?_⟩
  have h := (c5_score_snapshot ⟨[("m", some 3)], none⟩
      ⟨[⟨"m", .minimize, none⟩], none, none⟩ (fun _ => 3)
      (by simp)
      (by intro o ho; simp at ho; subst ho; rfl)
      (by intro o ho; simp at ho; subst ho; exact ⟨1, rfl, by norm_num⟩)).1
  rw [h]
  norm_num [orientedValue, effectiveWeight]

/-- C9 counterexample: two refutations of the universal overcharge
clause.  With start = 4, end = 0 on the three-character prompt abc the
clamped range [4, 4) is empty: the clamped end exceeds the prompt
length yet the charge 0 does not exceed the stored length 0.  With the
fractional start = 0.9, end = 3.05 (the coercion layer's asNumber
passes fractional numbers through unrounded), the clamped end 3.05
exceeds the length 3 and the range is non-empty, yet the charge 2.15
is strictly BELOW the stored length: the truncating read
slice(trunc 0.9, trunc 3.05) = slice(0, 3) returns all three
characters. -/
theorem c9_slice_prompt_counterexample :
    (slicePromptExec 0 ⟨"abc", defaultBudget {} 0, []⟩ 4 0 "out" =
        .ok ⟨"abc", defaultBudget {} 0, [("out", "")]⟩ ∧
      (("abc" : String).length : ℚ) < max (max 0 (4 : ℚ)) 0 ∧
      ¬ (((jsSliceQ "abc" (max 0 (4 : ℚ)) (max (max 0 4) 0)).length : ℚ) <
          max (max 0 (4 : ℚ)) 0 - max 0 4)) ∧
    (slicePromptExec 0 ⟨"abc", defaultBudget {} 0, []⟩ ((9 : ℚ)/10)
        ((61 : ℚ)/20) "out" =
      .ok ⟨"abc", { defaultBudget {} 0 with promptReadCharsUsed := 43/20 },
        [("out", "abc")]⟩ ∧
      max 0 ((9 : ℚ)/10) < max (max 0 ((9 : ℚ)/10)) ((61 : ℚ)/20) ∧
      (("abc" : String).length : ℚ) <
        max (max 0 ((9 : ℚ)/10)) ((61 : ℚ)/20) ∧
      max (max 0 ((9 : ℚ)/10)) ((61 : ℚ)/20) - max 0 ((9 : ℚ)/10) <
        ((jsSliceQ "abc" (max 0 ((9 : ℚ)/10))
            (max (max 0 ((9 : ℚ)/10)) ((61 : ℚ)/20))).length : ℚ)) := by
  have hst : max 0 ((9 : ℚ)/10) = 9/10 := by
    rw [max_eq_right]
    norm_num
  have hen : max ((9 : ℚ)/10) ((61 : ℚ)/20) = 61/20 := by
    rw [max_eq_right]
    norm_num
  have hq1 : qTrunc ((9 : ℚ)/10) = 0 := by
    rw [qTrunc, if_pos (by norm_num)]
    norm_num
  have hq2 : qTrunc ((61 : ℚ)/20) = 3 := by
    rw [qTrunc, if_pos (by norm_num)]
    norm_num
  have hval : jsSliceQ "abc" ((9 : ℚ)/10) ((61 : ℚ)/20) = "abc" := by
    rw [jsSliceQ, hq1, hq2]
    rfl
  have ht : ensureTimeBudget 0 (defaultBudget {} 0) = none := by
    rw [ensureTimeBudget, if_neg]
    norm_num [defaultBudget]
  have hch : consumePromptChars 0 (defaultBudget {} 0)
        ((61 : ℚ)/20 - 9/10) =
      (none, { defaultBudget {} 0 with promptReadCharsUsed := 43/20 }) := by
    simp only [consumePromptChars]
    rw [if_neg (by norm_num)]
    simp only [ht]
    rw [if_neg (by norm_num [defaultBudget])]
    norm_num [defaultBudget]
  refine ⟨⟨?_, ?_, ?_⟩, ?_, ?_, ?_, ?_⟩
  · unfold slicePromptExec
    rw [if_neg (by simp)]
    norm_num [consumePromptChars, jsSliceQ, qTrunc, jsSlice, mapSet, lookupStr]
  · norm_num [show ("abc" : String).length = 3 from rfl]
  · norm_num [jsSliceQ, qTrunc, jsSlice]
  · simp only [slicePromptExec]
    rw [if_neg (by simp), hst, hen, hch]
    simp [hval, mapSet, lookupStr]
  · rw [hst, hen]
    norm_num
  · rw [hst, hen]
    norm_num [show ("abc" : String).length = 3 from rfl]
  · rw [hst, hen, hval]
    norm_num [show ("abc" : String).length = 3 from rfl]

theorem jsSlice_length (s : String) (a b : Int) (ha : 0 ≤ a) (hb : 0 ≤ b) :
    (jsSlice s a b).length =
      (min b (s.length : Int)).toNat - (min a (s.length : Int)).toNat := by
  have hna : ¬(a < 0) := not_lt.mpr ha
  have hnb : ¬(b < 0) := not_lt.mpr hb
  simp only [jsSlice, hna, hnb, if_false]
  by_cases hle : min b (s.length : Int) ≤ min a (s.length : Int)
  · rw [if_pos hle]
    have h0 : ("" : String).length = 0 := rfl
    rw [h0]
    omega
  · rw [if_neg hle]
    have h1 : ∀ l : List Char, (List.asString l).length = l.length :=
      fun l => rfl
    rw [h1, List.length_take, List.length_drop]
    have h2 : s.toList.length = s.length := rfl
    rw [h2]
    rcases le_total a (s.length : Int) with hal | hal <;>
      rcases le_total b (s.length : Int) with hbl | hbl <;>
        simp only [min_eq_left, min_eq_right, hal, hbl] <;> omega

/-- C9 (amended): a successful slice_prompt charges exactly
en - st prompt characters where st = max(0, start) and
en = max(st, end), computed on the raw (possibly fractional) numbers
before the read, and stores the slice read with truncated-then-clamped
indices.  The overcharge clause holds for integral indices: when start
and end are integers, en strictly exceeds the prompt length and
st < en, the charge strictly exceeds the length of the stored string,
so promptReadCharsUsed can exceed both the prompt length and the
number of characters returned.  It is not universal: an empty clamped
range (st = en > length) charges zero, and fractional indices can
charge less than the stored length because the read truncates its
arguments while the charge does not; see the counterexample for
both. -/
theorem c9_slice_prompt_charge (now : ℚ) (env : SliceEnv) (start end_ : ℚ)
    (outKey : String) (hout : outKey ≠ "")
    (htime : now - env.budget.startedAt ≤ env.budget.maxTimeMs)
    (hcap : env.budget.promptReadCharsUsed +
        (max (max 0 start) end_ - max 0 start) ≤
      env.budget.maxPromptReadChars) :
    slicePromptExec now env start end_ outKey =
      .ok { env with
            budget := { env.budget with
              promptReadCharsUsed := env.budget.promptReadCharsUsed +
                (max (max 0 start) end_ - max 0 start) }
            scratch := mapSet env.scratch outKey
              (jsSliceQ env.prompt (max 0 start) (max (max 0 start) end_)) } ∧
    (start.den = 1 → end_.den = 1 →
     max 0 start < max (max 0 start) end_ →
     (env.prompt.length : ℚ) < max (max 0 start) end_ →
     ((jsSliceQ env.prompt (max 0 start) (max (max 0 start) end_)).length : ℚ) <
       max (max 0 start) end_ - max 0 start) := by
  constructor
  · simp only [slicePromptExec]
    rw [if_neg hout]
    by_cases hch : max (max 0 start) end_ - max 0 start ≤ 0
    · have hst : max 0 start ≤ max (max 0 start) end_ := le_max_left _ _
      have h0 : max (max 0 start) end_ - max 0 start = 0 := by linarith
      simp only [consumePromptChars, h0]
      norm_num
    · simp only [consumePromptChars]
      rw [if_neg hch]
      have ht : ensureTimeBudget now env.budget = none := by
        simp only [ensureTimeBudget, ite_eq_right_iff]
        intro hgt
        linarith
      rw [ht]
      rw [if_neg (not_lt.mpr hcap)]
  · intro hd1 hd2 hlt hlen
    have hstden : (max 0 start).den = 1 := by
      rcases max_choice 0 start with h | h <;> rw [h]
      · rfl
      · exact hd1
    have henden : (max (max 0 start) end_).den = 1 := by
      rcases max_choice (max 0 start) end_ with h | h <;> rw [h]
      · exact hstden
      · exact hd2
    have hstq : ((max 0 start).num : ℚ) = max 0 start :=
      Rat.coe_int_num_of_den_eq_one hstden
    have henq : ((max (max 0 start) end_).num : ℚ) = max (max 0 start) end_ :=
      Rat.coe_int_num_of_den_eq_one henden
    have hst0 : (0 : ℚ) ≤ max 0 start := le_max_left 0 start
    have hen0 : (0 : ℚ) ≤ max (max 0 start) end_ :=
      le_trans hst0 (le_max_left _ _)
    have hstn0 : 0 ≤ (max 0 start).num := by
      have h := hst0
      rw [← hstq] at h
      exact_mod_cast h
    have henn0 : 0 ≤ (max (max 0 start) end_).num := by
      have h := hen0
      rw [← henq] at h
      exact_mod_cast h
    have hts : qTrunc (max 0 start) = (max 0 start).num := by
      rw [qTrunc, if_pos hst0]
      conv_lhs => rw [← hstq]
      exact Int.floor_intCast _
    have hte : qTrunc (max (max 0 start) end_) = (max (max 0 start) end_).num := by
      rw [qTrunc, if_pos hen0]
      conv_lhs => rw [← henq]
      exact Int.floor_intCast _
    have hlezn : (env.prompt.length : Int) < (max (max 0 start) end_).num := by
      rw [← @Int.cast_lt ℚ]
      rw [henq]
      exact_mod_cast hlen
    have hltn : (max 0 start).num < (max (max 0 start) end_).num := by
      rw [← @Int.cast_lt ℚ]
      rw [hstq, henq]
      exact hlt
    rw [jsSliceQ, hts, hte,
      jsSlice_length env.prompt _ _ hstn0 henn0]
    have hminen : min (max (max 0 start) end_).num (env.prompt.length : Int) =
        (env.prompt.length : Int) := min_eq_right (le_of_lt hlezn)
    have key : (((min (max (max 0 start) end_).num (env.prompt.length : Int)).toNat -
        (min (max 0 start).num (env.prompt.length : Int)).toNat : Nat) : Int) <
        (max (max 0 start) end_).num - (max 0 start).num := by
      rcases le_total (max 0 start).num (env.prompt.length : Int) with h | h
      · rw [hminen, min_eq_left h]
        omega
      · rw [hminen, min_eq_right h]
        omega
    have hrhs : max (max 0 start) end_ - max 0 start =
        (((max (max 0 start) end_).num - (max 0 start).num : Int) : ℚ) := by
      push_cast
      rw [hstq, henq]
    rw [hrhs]
    exact_mod_cast key

/-- C9 witness: slicing [1, 9) out of the six-character prompt abcdef
charges 8 characters, stores the five-character string bcdef, and the
charge strictly exceeds the stored length. -/
theorem c9_slice_prompt_charge_witness :
    (("w" : String) ≠ "") ∧
    slicePromptExec 0 ⟨"abcdef", defaultBudget {} 0, []⟩ 1 9 "w" =
      .ok { prompt := "abcdef"
            budget := { defaultBudget {} 0 with
              promptReadCharsUsed := (defaultBudget {} 0).promptReadCharsUsed +
                (max (max 0 1) 9 - max 0 1) }
            scratch := mapSet [] "w" (jsSliceQ "abcdef" (max 0 1) (max (max 0 1) 9)) } ∧
    (((jsSliceQ "abcdef" (max 0 (1 : ℚ)) (max (max 0 1) 9)).length : ℚ) <
      max (max 0 (1 : ℚ)) 9 - max 0 1) := by
  have h := c9_slice_prompt_charge 0 ⟨"abcdef", defaultBudget {} 0, []⟩ 1 9 "w"
    (by simp) (by norm_num [defaultBudget]) (by norm_num [defaultBudget])
  exact ⟨by simp, h.1, h.2 rfl rfl (by norm_num)
    (by norm_num [show ("abcdef" : String).length = 6 from rfl])⟩

/-- C3: a sub-call whose fingerprint (the abstract hash of the
serialized promptId, query, sub-prompt and options record) is in the
shared cache returns the cached final, appends a sub_call trace event
with cached true, and leaves the budget (hence subCallsUsed) unchanged;
a sub-call that misses the cache, within the depth, time and sub-call
budgets, increments subCallsUsed by one, runs the child loop, stores
the child's final under the fingerprint, and appends a sub_call event
with cached false. -/
theorem c3_sub_call_cache (hash : String → String)
    (runChild : String → String → Option SubRLMOptions → String)
    (now metaPreviewChars : ℚ) (env : SubEnv) (query : String)
    (options : Option SubRLMOptions) :
    (∀ v, lookupStr env.cache
        (subCacheKey hash env.promptId query (subPromptOf env options) options) =
          some v →
      runSubRLM hash runChild now metaPreviewChars env query options =
        .ok (v, { env with trace := env.trace ++
          [.sub_call (env.budget.depth + 1) query
            (makeStdoutMeta v [] metaPreviewChars) true] })) ∧
    (lookupStr env.cache
        (subCacheKey hash env.promptId query (subPromptOf env options) options) =
          none →
     env.budget.depth + 1 ≤ env.budget.maxDepth →
     now - env.budget.startedAt ≤ env.budget.maxTimeMs →
     env.budget.subCallsUsed + 1 ≤ env.budget.maxSubCalls →
     runSubRLM hash runChild now metaPreviewChars env query options =
       .ok (runChild (subPromptOf env options) query options,
         { env with
           budget := { env.budget with
             subCallsUsed := env.budget.subCallsUsed + 1 }
           cache := mapSet env.cache
             (subCacheKey hash env.promptId query (subPromptOf env options) options)
             (runChild (subPromptOf env options) query options)
           trace := env.trace ++
             [.sub_call (env.budget.depth + 1) query
               (makeStdoutMeta (runChild (subPromptOf env options) query options)
                 [] metaPreviewChars) false] })) := by
  constructor
  · intro v hv
    simp only [runSubRLM, hv]
  · intro hnone hdepth htime hsub
    have ht : ensureTimeBudget now env.budget = none := by
      simp only [ensureTimeBudget, ite_eq_right_iff]
      intro hgt
      linarith
    simp only [runSubRLM, hnone, ensureNextDepth, consumeSubCall, ht]
    rw [if_neg (not_lt.mpr hdepth)]
    rw [if_neg (not_lt.mpr hsub)]

/-- C3 witness: with the hash collapsed to the key k already cached as
v, the sub-call returns v, pushes a cached sub_call event, and leaves
the budget untouched. -/
theorem c3_sub_call_cache_witness :
    lookupStr [("k", "v")]
      (subCacheKey (fun _ => "k") "pid" "q"
        (subPromptOf ⟨"p", "pid", [("k", "v")], defaultBudget {} 0, []⟩ none)
        none) = some "v" ∧
    runSubRLM (fun _ => "k") (fun _ _ _ => "x") 0 200
        ⟨"p", "pid", [("k", "v")], defaultBudget {} 0, []⟩ "q" none =
      .ok ("v",
        { prompt := "p", promptId := "pid", cache := [("k", "v")],
          budget := defaultBudget {} 0,
          trace := [.sub_call ((defaultBudget {} 0).depth + 1) "q"
            (makeStdoutMeta "v" [] 200) true] }) :=
  ⟨rfl,
    (c3_sub_call_cache (fun _ => "k") (fun _ _ _ => "x") 0 200
        ⟨"p", "pid", [("k", "v")], defaultBudget {} 0, []⟩ "q" none).1 "v" rfl⟩

/-- C4 counterexample: on the prompt a,1 / 2,3 the first row is not all
non-numeric (the cell 1 is numeric), so the claim's conjunction says
row 0 stays a data row with synthetic headers; but the code's numeric
hint fires on column 0 alone, so parseCsv takes row 0 as the header. -/
theorem c4_csv_header_counterexample :
    (parseCsv "a,1\n2,3" ",").headers = ["a", "1"] ∧
    (parseCsv "a,1\n2,3" ",").rows = [["2", "3"]] ∧
    claimHeaderCondition (csvCellRows "a,1\n2,3" ",") = false :=
  ⟨rfl, rfl, rfl⟩

theorem csvHasHeader_iff (first second : List String)
    (rest : List (List String)) :
    csvHasHeader (first :: second :: rest) = true ↔
      ((∃ i cell next, first.get? i = some cell ∧ second.get? i = some next ∧
          looksNumeric cell = false ∧ looksNumeric next = true) ∨
       (first ≠ [] ∧ ∀ c ∈ first, isLikelyHeaderCell c = true)) := by
  simp only [csvHasHeader, Bool.or_eq_true, List.any_eq_true, List.mem_range]
  constructor
  · rintro (⟨i, hi, hmatch⟩ | hname)
    · cases hg1 : first.get? i with
      | none => rw [hg1] at hmatch; cases hg2 : second.get? i <;>
          rw [hg2] at hmatch <;> simp at hmatch
      | some cell =>
        cases hg2 : second.get? i with
        | none => rw [hg1, hg2] at hmatch; simp at hmatch
        | some next =>
          rw [hg1, hg2] at hmatch
          simp only [Bool.and_eq_true, Bool.not_eq_true'] at hmatch
          exact Or.inl ⟨i, cell, next, hg1, hg2, hmatch.1, hmatch.2⟩
    · simp only [Bool.and_eq_true, Bool.not_eq_true', List.all_eq_true] at hname
      refine Or.inr ⟨?_, hname.2⟩
      intro hemp
      rw [hemp] at hname
      simp at hname
  · rintro (⟨i, cell, next, hg1, hg2, hc1, hc2⟩ | ⟨hne, hall⟩)
    · left
      have hi : i < first.length := by
        by_contra hge
        rw [List.get?_eq_none.mpr (le_of_not_lt hge)] at hg1
        cases hg1
      refine ⟨i, hi, ?_⟩
      rw [hg1, hg2]
      simp [hc1, hc2]
    · right
      simp only [Bool.and_eq_true, Bool.not_eq_true', List.all_eq_true]
      constructor
      · cases h : first with
        | nil => exact absurd h hne
        | cons a l => rfl
      · exact hall

/-- C4 (amended): parseCsv treats row 0 as a header row exactly when
there are at least two rows and EITHER some column is non-numeric in
row 0 while numeric in row 1, OR row 0 is non-empty and every cell is
an identifier-like non-numeric token (the code's two hints are a
disjunction, not the claim's conjunction); with fewer than two rows, or
when neither hint fires, row 0 stays a data row under synthetic
col0..colN headers. -/
theorem c4_parse_csv_header_rule (prompt delimiter : String) :
    (∀ first second rest,
      csvCellRows prompt delimiter = first :: second :: rest →
      (((parseCsv prompt delimiter).headers = first ∧
        (parseCsv prompt delimiter).rows = second :: rest) ↔
       ((∃ i cell next, first.get? i = some cell ∧ second.get? i = some next ∧
           looksNumeric cell = false ∧ looksNumeric next = true) ∨
        (first ≠ [] ∧ ∀ c ∈ first, isLikelyHeaderCell c = true)))) ∧
    ((csvCellRows prompt delimiter).length < 2 →
      (parseCsv prompt delimiter).headers =
        (List.range ((csvCellRows prompt delimiter).headD []).length).map
          (fun i => "col" ++ toString i) ∧
      (parseCsv prompt delimiter).rows = csvCellRows prompt delimiter) := by
  constructor
  · intro first second rest h
    cases hh : csvHasHeader (first :: second :: rest) with
    | true =>
      have hph : (parseCsv prompt delimiter).headers = first := by
        simp [parseCsv, h, hh]
      have hpr : (parseCsv prompt delimiter).rows = second :: rest := by
        simp [parseCsv, h, hh]
      constructor
      · intro _
        exact (csvHasHeader_iff first second rest).mp hh
      · intro _
        exact ⟨hph, hpr⟩
    | false =>
      constructor
      · rintro ⟨h1, h2⟩
        have hpr : (parseCsv prompt delimiter).rows = first :: second :: rest := by
          simp [parseCsv, h, hh]
        rw [hpr] at h2
        have := congrArg List.length h2
        simp at this
      · intro hr
        have := (csvHasHeader_iff first second rest).mpr hr
        rw [hh] at this
        exact absurd this Bool.false_ne_true
  · intro hlen
    have hh : csvHasHeader (csvCellRows prompt delimiter) = false := by
      cases h : csvCellRows prompt delimiter with
      | nil => rfl
      | cons a l =>
        cases l with
        | nil => rfl
        | cons b l2 =>
          rw [h] at hlen
          simp only [List.length_cons] at hlen
          exact absurd hlen (by omega)
    simp only [parseCsv, hh, if_false]
    exact ⟨rfl, rfl⟩

/-- C4 witness: on name,score / alice,3 / bob,5 the numeric hint fires
in column 1 (score over 3), so row 0 becomes the header row. -/
theorem c4_parse_csv_header_rule_witness :
    csvCellRows "name,score\nalice,3\nbob,5" "," =
      [["name", "score"], ["alice", "3"], ["bob", "5"]] ∧
    ((parseCsv "name,score\nalice,3\nbob,5" ",").headers = ["name", "score"] ∧
     (parseCsv "name,score\nalice,3\nbob,5" ",").rows =
       [["alice", "3"], ["bob", "5"]]) :=
  ⟨rfl,
    ((c4_parse_csv_header_rule "name,score\nalice,3\nbob,5" ",").1
        ["name", "score"] ["alice", "3"] [["bob", "5"]] rfl).mpr
      (Or.inl ⟨1, "score", "3", rfl, rfl, rfl, rfl⟩)⟩

theorem exceptBind_ok {ε α β : Type} (a : α) (f : α → Except ε β) :
    (Except.ok (ε := ε) a >>= f) = f a := rfl

theorem exceptBind_err {ε α β : Type} (e : ε) (f : α → Except ε β) :
    (Except.error (α := α) e >>= f) = Except.error (α := β) e := rfl

theorem derefRow_append (h tail : Heap) (r : Nat) (hr : r < h.length) :
    derefRow (h ++ tail) r = derefRow h r := by
  simp only [derefRow]
  rw [List.get?_append hr]

/-- C10: a successful doc_select_rows filter leaves the source document
untouched and shares nothing with it: the headers array and every row
array of the source dereference identically before and after, the
result document's row references are all fresh (disjoint from the
source's), it shares the source's headers reference and delimiter, and
each of its rows is a copy of some retained source row. -/
theorem c10_filter_rows_fresh (h : Heap) (doc : CsvDocRef) (column : ColKey)
    (comparator : Option CsvRowComparator) (value : Scalar)
    (h2 : Heap) (doc2 : CsvDocRef) (hwf : docWF h doc)
    (hok : filterCsvRows h doc column comparator value = .ok (h2, doc2)) :
    derefRow h2 doc.headersRef = derefRow h doc.headersRef ∧
    (∀ r ∈ doc.rowRefs, derefRow h2 r = derefRow h r) ∧
    (∀ r ∈ doc2.rowRefs, r ∉ doc.rowRefs) ∧
    doc2.headersRef = doc.headersRef ∧
    doc2.delimiter = doc.delimiter ∧
    (∀ r2 ∈ doc2.rowRefs, ∃ r ∈ doc.rowRefs, derefRow h2 r2 = derefRow h r) := by
  cases hres : resolveCsvColumnIndex (derefRow h doc.headersRef) column with
  | error e =>
    simp [filterCsvRows, hres, exceptBind_err] at hok
  | ok idx =>
    simp only [filterCsvRows, hres, exceptBind_ok, Except.ok.injEq,
      Prod.mk.injEq] at hok
    obtain ⟨hh2, hdoc2⟩ := hok
    have hkept : ∀ r, r ∈ doc.rowRefs.filter
        (filterRowPred h idx (normalizeScalar value) (comparator.getD .eq)) →
        r ∈ doc.rowRefs := fun r hr => List.mem_of_mem_filter hr
    refine ⟨?_, ?_, ?_, ?_, ?_, ?_⟩
    · rw [← hh2]
      exact derefRow_append h _ doc.headersRef hwf.1
    · intro r hr
      rw [← hh2]
      exact derefRow_append h _ r (hwf.2 r hr)
    · intro r hr
      rw [← hdoc2] at hr
      simp only [List.mem_map, List.mem_range] at hr
      obtain ⟨i, _, hi⟩ := hr
      intro hmem
      have := hwf.2 r hmem
      omega
    · rw [← hdoc2]
    · rw [← hdoc2]
    · intro r2 hr2
      rw [← hdoc2] at hr2
      simp only [List.mem_map, List.mem_range] at hr2
      obtain ⟨i, hilt, hi⟩ := hr2
      set kept := doc.rowRefs.filter
        (filterRowPred h idx (normalizeScalar value) (comparator.getD .eq)) with hkeptdef
      have hlen : i < kept.length := by
        simpa [hkeptdef] using hilt
      obtain ⟨rsrc, hget⟩ : ∃ rsrc, kept.get? i = some rsrc := by
        cases hg : kept.get? i with
        | none =>
          rw [List.get?_eq_none] at hg
          omega
        | some rsrc => exact ⟨rsrc, rfl⟩
      refine ⟨rsrc, hkept rsrc (List.get?_mem hget), ?_⟩
      rw [← hh2, ← hi]
      have h1 : (h ++ kept.map (derefRow h)).get? (h.length + i) =
          (kept.map (derefRow h)).get? i := by
        rw [List.get?_append_right (Nat.le_add_right h.length i)]
        congr 1
        omega
      have h2m : (kept.map (derefRow h)).get? i = some (derefRow h rsrc) := by
        rw [List.get?_map, hget]
        rfl
      have hder : derefRow (h ++ kept.map (derefRow h)) (h.length + i) =
          derefRow h rsrc := by
        show (List.get? (h ++ kept.map (derefRow h)) (h.length + i)).getD [] =
          derefRow h rsrc
        rw [h1, h2m]
        rfl
      simpa [hkeptdef] using hder

/-- C10 witness: filtering name = alice over a three-row heap keeps one
row as a fresh copy whose reference 3 is outside the source's
references 1 and 2. -/
theorem c10_filter_rows_fresh_witness :
    docWF [["name", "score"], ["alice", "3"], ["bob", "5"]] ⟨",", 0, [1, 2]⟩ ∧
    filterCsvRows [["name", "score"], ["alice", "3"], ["bob", "5"]]
        ⟨",", 0, [1, 2]⟩ (.name "name") none (.str "alice") =
      .ok ([["name", "score"], ["alice", "3"], ["bob", "5"], ["alice", "3"]],
        ⟨",", 0, [3]⟩) ∧
    (∀ r ∈ (CsvDocRef.mk "," 0 [3]).rowRefs,
      r ∉ (CsvDocRef.mk "," 0 [1, 2]).rowRefs) := by
  have hwf : docWF [["name", "score"], ["alice", "3"], ["bob", "5"]]
      ⟨",", 0, [1, 2]⟩ := by
    unfold docWF
    exact ⟨by decide, by decide⟩
  exact ⟨hwf, rfl,
    (c10_filter_rows_fresh [["name", "score"], ["alice", "3"], ["bob", "5"]]
        ⟨",", 0, [1, 2]⟩ (.name "name") none (.str "alice")
        [["name", "score"], ["alice", "3"], ["bob", "5"], ["alice", "3"]]
        ⟨",", 0, [3]⟩ hwf rfl).2.2.1⟩

theorem coerceLongRunSpec_objectives_ne_nil (x : Option JSValue)
    (spec : PlannerLongRunSpec) (hx : coerceLongRunSpec x = some spec) :
    spec.objectives ≠ [] := by
  unfold coerceLongRunSpec at hx
  repeat' split at hx
  all_goals cases hx
  all_goals intro habs
  all_goals simp_all
  all_goals
    obtain ⟨x, hmem, hne⟩ := ‹∃ x ∈ _, ¬coerceObjectiveRow x = none›
  all_goals exact hne (habs x hmem)

theorem planModeAndLongRun_long_run (rawMode : Option JSValue)
    (lr : Option PlannerLongRunSpec)
    (h : (planModeAndLongRun rawMode lr).1 = .long_run) :
    ∃ spec, lr = some spec ∧ (planModeAndLongRun rawMode lr).2 = some spec := by
  unfold planModeAndLongRun at h ⊢
  cases lr with
  | some spec =>
    refine ⟨spec, rfl, ?_⟩
    cases hm : (match rawMode with
      | some (.str s) =>
        if s = "long_run" then PlanMode.long_run else PlanMode.single
      | _ => PlanMode.single) with
    | single =>
      simp only [hm] at h
      exact absurd h (by simp)
    | long_run =>
      simp only [hm]
  | none =>
    cases hm : (match rawMode with
      | some (.str s) =>
        if s = "long_run" then PlanMode.long_run else PlanMode.single
      | _ => PlanMode.single) with
    | single =>
      simp only [hm] at h
      exact absurd h (by simp)
    | long_run =>
      simp only [hm] at h
      exact absurd h (by simp)

/-- C8: a planner response from which no JSON object can be extracted,
or whose extracted object fails to parse, or whose parsed value is not
an object, produces the default single-mode plan whose task is the user
input; and plan coercion never yields a long_run plan without a valid
longRun spec (one with at least one well-formed objective) — a long_run
mode without one degrades to single. -/
theorem c8_plan_coercion_fallback :
    (∀ (jsonParse : String → Option JSValue) (llmText input : String)
       (syms : List String),
      extractFirstJSONObject llmText = none →
      createRLMPlan jsonParse llmText input syms =
        makeDefaultSinglePlan input syms) ∧
    (∀ (jsonParse : String → Option JSValue) (llmText objText input : String)
       (syms : List String),
      extractFirstJSONObject llmText = some objText →
      jsonParse objText = none →
      createRLMPlan jsonParse llmText input syms =
        makeDefaultSinglePlan input syms) ∧
    (∀ (v : JSValue) (input : String) (syms : List String),
      isRecord v = false →
      coercePlannerPlan v input syms = makeDefaultSinglePlan input syms) ∧
    (∀ (input : String) (syms : List String),
      (makeDefaultSinglePlan input syms).mode = .single ∧
      (makeDefaultSinglePlan input syms).task = input) ∧
    (∀ (v : JSValue) (input : String) (syms : List String),
      (coercePlannerPlan v input syms).mode = .long_run →
      ∃ spec, (coercePlannerPlan v input syms).longRun = some spec ∧
        spec.objectives ≠ []) := by
  refine ⟨?_, ?_, ?_, ?_, ?_⟩
  · intro jsonParse llmText input syms hnone
    simp [createRLMPlan, hnone]
  · intro jsonParse llmText objText input syms hsome hparse
    simp [createRLMPlan, hsome, hparse]
  · intro v input syms hv
    cases v with
    | obj fields => simp [isRecord] at hv
    | null => rfl
    | bool b => rfl
    | num q => rfl
    | str s => rfl
    | arr xs => rfl
  · intro input syms
    exact ⟨rfl, rfl⟩
  · intro v input syms hmode
    cases v with
    | null => simp [coercePlannerPlan, makeDefaultSinglePlan] at hmode
    | bool b => simp [coercePlannerPlan, makeDefaultSinglePlan] at hmode
    | num q => simp [coercePlannerPlan, makeDefaultSinglePlan] at hmode
    | str s => simp [coercePlannerPlan, makeDefaultSinglePlan] at hmode
    | arr xs => simp [coercePlannerPlan, makeDefaultSinglePlan] at hmode
    | obj row =>
      simp only [coercePlannerPlan] at hmode ⊢
      obtain ⟨spec, hlr, hpair⟩ := planModeAndLongRun_long_run _ _ hmode
      exact ⟨spec, hpair,
        coerceLongRunSpec_objectives_ne_nil (lookupStr row "longRun") spec hlr⟩

/-- C8 witness: a planner response without any JSON object yields the
default single plan with task equal to the user input. -/
theorem c8_plan_coercion_fallback_witness :
    extractFirstJSONObject "no json here" = none ∧
    createRLMPlan (fun _ => none) "no json here" "the task" ["sym"] =
      makeDefaultSinglePlan "the task" ["sym"] :=
  ⟨rfl,
    c8_plan_coercion_fallback.1 (fun _ => none) "no json here" "the task"
      ["sym"] rfl⟩

/-- Whatever the long-run loop does, it only ever appends rounds to the
accumulated list. -/
theorem longRunAux_rounds_extend {α σ : Type} (policy : ImprovementPolicy)
    (g : LongRunContext α σ → List (Candidate α))
    (e : Candidate α → LongRunContext α σ → Except String MetricSnapshot)
    (oA : Option (ImprovementResult α → LongRunContext α σ → σ))
    (stop : Bool) :
    ∀ (fuel it : Nat) (state : σ) (baseline : MetricSnapshot) (score : ℚ)
      (rounds : List (ImprovementReport α))
      (hist : List (ImprovementResult α)) (r : LongRunReport α σ),
      longRunAux policy g e oA stop fuel it state baseline score rounds hist
        = .ok r →
      ∃ extra, r.rounds = rounds ++ extra := by
  intro fuel
  induction fuel with
  | zero =>
    intro it state baseline score rounds hist r h
    simp only [longRunAux] at h
    injection h with h
    subst h
    exact ⟨[], by simp⟩
  | succ n ih =>
    intro it state baseline score rounds hist r h
    simp only [longRunAux] at h
    split at h
    · injection h with h
      subst h
      exact ⟨[], by simp⟩
    · split at h
      · exact absurd h (by simp)
      · split at h
        · split at h
          · split at h
            · exact absurd h (by simp)
            · obtain ⟨extra, hx⟩ := ih _ _ _ _ _ _ _ h
              rw [List.append_assoc] at hx
              exact ⟨_, hx⟩
          · split at h
            · injection h with h
              subst h
              exact ⟨_, rfl⟩
            · obtain ⟨extra, hx⟩ := ih _ _ _ _ _ _ _ h
              rw [List.append_assoc] at hx
              exact ⟨_, hx⟩
        · split at h
          · injection h with h
            subst h
            exact ⟨_, rfl⟩
          · obtain ⟨extra, hx⟩ := ih _ _ _ _ _ _ _ h
            rw [List.append_assoc] at hx
            exact ⟨_, hx⟩

/-- Invariant of the long-run loop: provided every round of the final
report has a best accepted snapshot, if the accumulated rounds end in a
round whose best accepted snapshot is the current baseline, the final
rounds end in a round whose best accepted snapshot is the final
baseline. -/
theorem longRunAux_lastBaseline {α σ : Type} (policy : ImprovementPolicy)
    (g : LongRunContext α σ → List (Candidate α))
    (e : Candidate α → LongRunContext α σ → Except String MetricSnapshot)
    (oA : Option (ImprovementResult α → LongRunContext α σ → σ))
    (stop : Bool) :
    ∀ (fuel it : Nat) (state : σ) (baseline : MetricSnapshot) (score : ℚ)
      (rounds : List (ImprovementReport α))
      (hist : List (ImprovementResult α)) (r : LongRunReport α σ),
      longRunAux policy g e oA stop fuel it state baseline score rounds hist
        = .ok r →
      (∀ rd ∈ r.rounds, hasBestSnap rd) →
      (∀ last ∈ rounds.getLast?, ∃ best, last.bestAccepted = some best ∧
        best.snapshot = some baseline) →
      ∀ last ∈ r.rounds.getLast?, ∃ best, last.bestAccepted = some best ∧
        best.snapshot = some r.finalBaseline := by
  intro fuel
  induction fuel with
  | zero =>
    intro it state baseline score rounds hist r h hall hinv
    simp only [longRunAux] at h
    injection h with h
    subst h
    exact hinv
  | succ n ih =>
    intro it state baseline score rounds hist r h hall hinv
    simp only [longRunAux] at h
    split at h
    · injection h with h
      subst h
      exact hinv
    · split at h
      · exact absurd h (by simp)
      · rename_i round heqRound
        split at h
        · rename_i best heqBest
          split at h
          · rename_i snap heqSnap
            split at h
            · exact absurd h (by simp)
            · refine ih _ _ _ _ _ _ _ h hall ?_
              intro last hlast
              rw [List.getLast?_concat] at hlast
              simp only [Option.mem_def, Option.some.injEq] at hlast
              subst hlast
              exact ⟨best, heqBest, heqSnap⟩
          · rename_i heqSnap
            split at h
            · injection h with h
              subst h
              obtain ⟨b, s, hb, hs⟩ := hall round (by simp)
              rw [heqBest] at hb
              injection hb with hb
              subst hb
              rw [heqSnap] at hs
              exact absurd hs (by simp)
            · obtain ⟨extra, hx⟩ :=
                longRunAux_rounds_extend policy g e oA stop _ _ _ _ _ _ _ _ h
              obtain ⟨b, s, hb, hs⟩ := hall round (by rw [hx]; simp)
              rw [heqBest] at hb
              injection hb with hb
              subst hb
              rw [heqSnap] at hs
              exact absurd hs (by simp)
        · rename_i heqBest
          split at h
          · injection h with h
            subst h
            obtain ⟨b, s, hb, hs⟩ := hall round (by simp)
            rw [heqBest] at hb
            exact absurd hb (by simp)
          · obtain ⟨extra, hx⟩ :=
              longRunAux_rounds_extend policy g e oA stop _ _ _ _ _ _ _ _ h
            obtain ⟨b, s, hb, hs⟩ := hall round (by rw [hx]; simp)
            rw [heqBest] at hb
            exact absurd hb (by simp)

/-- C7: in the long-run improvement loop, an iteration whose candidate
generation returns the empty list terminates the loop with the
accumulated report; if every executed round has a best accepted result
carrying a snapshot, the final baseline is exactly the last round's best
accepted snapshot; and with stopWhenNoAccept set, a round without a best
accepted result terminates the loop after recording that round. -/
theorem c7_long_run_loop {α σ : Type} (policy : ImprovementPolicy)
    (g : LongRunContext α σ → List (Candidate α))
    (e : Candidate α → LongRunContext α σ → Except String MetricSnapshot)
    (oA : Option (ImprovementResult α → LongRunContext α σ → σ)) :
    (∀ (stop : Bool) (fuel it : Nat) (state : σ) (baseline : MetricSnapshot)
       (score : ℚ) (rounds : List (ImprovementReport α))
       (hist : List (ImprovementResult α)),
      g ⟨it, state, baseline, score, rounds, hist⟩ = [] →
      longRunAux policy g e oA stop (fuel + 1) it state baseline score rounds
        hist = .ok ⟨rounds, hist, baseline, score, state⟩) ∧
    (∀ (baseline : MetricSnapshot) (initialState : σ) (maxIterations : ℚ)
       (stop : Bool) (r : LongRunReport α σ),
      runLongImprovementLoop policy baseline initialState maxIterations stop
        g e oA = .ok r →
      (∀ rd ∈ r.rounds, hasBestSnap rd) →
      r.rounds ≠ [] →
      ∃ last best, r.rounds.getLast? = some last ∧
        last.bestAccepted = some best ∧
        best.snapshot = some r.finalBaseline) ∧
    (∀ (fuel it : Nat) (state : σ) (baseline : MetricSnapshot) (score : ℚ)
       (rounds : List (ImprovementReport α))
       (hist : List (ImprovementResult α)) (round : ImprovementReport α),
      (g ⟨it, state, baseline, score, rounds, hist⟩).isEmpty = false →
      runImprovementLoop policy baseline
        (g ⟨it, state, baseline, score, rounds, hist⟩)
        (fun c _ => e c ⟨it, state, baseline, score, rounds, hist⟩) false
        = .ok round →
      round.bestAccepted = none →
      longRunAux policy g e oA true (fuel + 1) it state baseline score rounds
        hist = .ok ⟨rounds ++ [round],
          hist ++ round.results.filter (fun x => x.accepted),
          baseline, score, state⟩) := by
  refine ⟨?_, ?_, ?_⟩
  · intro stop fuel it state baseline score rounds hist hempty
    simp [longRunAux, hempty]
  · intro baseline initialState maxIterations stop r h hall hne
    simp only [runLongImprovementLoop] at h
    split at h
    · exact absurd h (by simp)
    · have hlast := longRunAux_lastBaseline policy g e oA stop _ _ _ _ _ _ _ _ h
        hall (by intro last hl; simp at hl)
      obtain ⟨last, hl⟩ := Option.isSome_iff_exists.mp
        (List.getLast?_isSome.mpr hne)
      obtain ⟨best, hb, hs⟩ := hlast last (by rw [hl]; rfl)
      exact ⟨last, best, hl, hb, hs⟩
  · intro fuel it state baseline score rounds hist round hne hrun hnone
    simp [longRunAux, hne, hrun, hnone]

/-- C7 witness: with a candidate generator that returns no candidates,
one available iteration terminates immediately with the empty report;
and with stopWhenNoAccept set, a single rejected candidate (a failing
evaluator) ends the loop after one recorded round. -/
theorem c7_long_run_loop_witness :
    ((fun (_ : LongRunContext Unit Unit) => ([] : List (Candidate Unit)))
        ⟨0, (), ⟨[("m", some 0)], none⟩, 0, [], []⟩ = [] ∧
      longRunAux ⟨[⟨"m", .maximize, none⟩], none, none⟩
        (fun (_ : LongRunContext Unit Unit) => ([] : List (Candidate Unit)))
        (fun _ _ => .error "")
        (none : Option (ImprovementResult Unit → LongRunContext Unit Unit →
          Unit))
        true 1 0 () ⟨[("m", some 0)], none⟩ 0 [] []
        = .ok ⟨[], [], ⟨[("m", some 0)], none⟩, 0, ()⟩) ∧
    longRunAux ⟨[⟨"m", .maximize, none⟩], none, none⟩
      (fun (_ : LongRunContext Unit Unit) => [(⟨"c", ()⟩ : Candidate Unit)])
      (fun _ _ => .error "boom")
      (none : Option (ImprovementResult Unit → LongRunContext Unit Unit →
        Unit))
      true 1 0 () ⟨[("m", some 0)], none⟩ 0 [] []
      = .ok ⟨[⟨⟨[⟨"m", .maximize, none⟩], none, none⟩,
              ⟨[("m", some 0)], none⟩, 0,
              [⟨⟨"c", ()⟩, false, ["evaluation_error"], none, none, none,
                some "boom"⟩], none⟩],
             [], ⟨[("m", some 0)], none⟩, 0, ()⟩ := by
  refine ⟨⟨rfl, ?_⟩, ?_⟩
  · exact (c7_long_run_loop ⟨[⟨"m", .maximize, none⟩], none, none⟩
      (fun (_ : LongRunContext Unit Unit) => ([] : List (Candidate Unit)))
      (fun _ _ => .error "") none).1 true 0 0 ()
      ⟨[("m", some 0)], none⟩ 0 [] [] rfl
  · refine (c7_long_run_loop ⟨[⟨"m", .maximize, none⟩], none, none⟩
      (fun (_ : LongRunContext Unit Unit) => [(⟨"c", ()⟩ : Candidate Unit)])
      (fun _ _ => .error "boom") none).2.2 0 0 ()
      ⟨[("m", some 0)], none⟩ 0 [] []
      ⟨⟨[⟨"m", .maximize, none⟩], none, none⟩, ⟨[("m", some 0)], none⟩, 0,
        [⟨⟨"c", ()⟩, false, ["evaluation_error"], none, none, none,
          some "boom"⟩], none⟩ rfl ?_ rfl
    norm_num [runImprovementLoop, validatePolicy, scoreSnapshot,
      scoreObjectives, lookupStr, improvementLoopAux, pickBestAccepted]

end Rlm
